import Mathlib

/-!
Shallow embedding of `app.py` (gameday-master-chef-pro2): a small web
application that stores one rating per (entrant, device) pair in a single
table, aggregates a leaderboard, exports CSV, and gates an admin page by
password.

Modelling conventions:
* SQLite rows are a Lean structure `Row`; the table is a `DB` holding the
  list of rows plus the AUTOINCREMENT counter.
* JSON values arriving in request bodies are `JVal`; JSON numbers are
  decimal (`jdec m k` denotes m / 10^k), which faithfully covers payloads
  such as 4.7 without floating point.
* Python `int(...)` is `pyInt` / `pyIntOfString`; Python `str.strip` is
  `pyStrip` on character lists.
* SQL `AVG` over a group of k rows is the exact fraction (sum, k); the
  JSON floats the endpoint returns after `round(x, 2)` are modelled in
  hundredths as integers (`avgCenti`), i.e. the emitted number times 100.
* Timestamps (`created_at`, `CURRENT_TIMESTAMP`) are naturals supplied to
  each request as the current server time.
-/

def ENTRANTS : List String :=
  ["Javier", "Lindsay", "Yesenia", "Bryan", "Viviana", "Bernie", "Rogelio",
   "Daniella", "Colleen", "Justin", "Paige", "Nic", "Martha"]

/-- `ENTRANTS[e]` for a trusted in-range index (Python would raise on an
out-of-range index; handlers only reach this with validated indices). -/
def entrantName (e : Int) : String := ENTRANTS.getD e.toNat ""

/-- A JSON value as it appears in a request body or query. -/
inductive JVal where
  | jnull
  | jint (n : Int)
  | jdec (m : Int) (k : Nat)
  | jstr (s : String)
deriving DecidableEq

/-- Truncation toward zero of m / d (Python `int()` on a float). -/
def truncTowardZero (m : Int) (d : Nat) : Int :=
  if 0 ≤ m then m / (d : Int) else -((-m) / (d : Int))

/-- Python `str.strip()`: drop whitespace from both ends. -/
def pyStrip (cs : List Char) : List Char :=
  ((cs.dropWhile Char.isWhitespace).reverse.dropWhile Char.isWhitespace).reverse

/-- Value of a nonempty all-digit character list, else `none`. -/
def digitsVal (cs : List Char) : Option Nat :=
  if cs.isEmpty then none
  else cs.foldlM (fun acc c => if c.isDigit then some (acc * 10 + (c.toNat - 48)) else none) 0

/-- Python `int(s)` on a string: strip whitespace, optional sign, digits. -/
def pyIntOfString (s : String) : Option Int :=
  match pyStrip s.toList with
  | '-' :: rest => (digitsVal rest).map (fun n => -(n : Int))
  | '+' :: rest => (digitsVal rest).map (fun n => (n : Int))
  | cs => (digitsVal cs).map (fun n => (n : Int))

/-- Python `int(v)` on a JSON value; `none` models a raised exception. -/
def pyInt : JVal → Option Int
  | .jnull => none
  | .jint n => some n
  | .jdec m k => some (truncTowardZero m (10 ^ k))
  | .jstr s => pyIntOfString s

/-- `(data.get("judge") or "").strip()[:50] or None`; `none` (outer) models a
raised exception (`.strip()` on a truthy non-string). -/
def pyJudge : JVal → Option (Option String)
  | .jnull => some none
  | .jstr s =>
      some (let t := (pyStrip s.toList).take 50
            if t.isEmpty then none else some (String.mk t))
  | .jint n => if n = 0 then some none else none
  | .jdec m _ => if m = 0 then some none else none

/-- One row of the `ratings` table. -/
structure Row where
  id : Nat
  entrant_index : Int
  taste : Int
  presentation : Int
  easy : Int
  judge : Option String
  device_id : String
  created_at : Nat
deriving DecidableEq

/-- The `ratings` table plus the AUTOINCREMENT counter. -/
structure DB where
  rows : List Row
  nextId : Nat
deriving DecidableEq

/-- Does the row sit at the UNIQUE key (entrant_index, device_id)? -/
def Row.hasKey (r : Row) (e : Int) (dev : String) : Bool :=
  decide (r.entrant_index = e ∧ r.device_id = dev)

/-- `request.cookies.get("device_id") or "anon"`. -/
def device_id_from_request (cookie : Option String) : String :=
  match cookie with
  | some s => if s = "" then "anon" else s
  | none => "anon"

/-- `INSERT ... ON CONFLICT(entrant_index, device_id) DO UPDATE SET
taste, presentation, easy, judge` — note `created_at` is not in the SET
list, so updates leave it untouched. -/
def upsert (db : DB) (e t p y : Int) (j : Option String) (dev : String) (now : Nat) : DB :=
  if db.rows.any (fun r => r.hasKey e dev) then
    { db with rows := db.rows.map (fun r =>
        if r.hasKey e dev then
          { r with taste := t, presentation := p, easy := y, judge := j }
        else r) }
  else
    { rows := db.rows ++
        [{ id := db.nextId, entrant_index := e, taste := t, presentation := p,
           easy := y, judge := j, device_id := dev, created_at := now }],
      nextId := db.nextId + 1 }

inductive RateResp where
  | ok
  | err400 (msg : String)
deriving DecidableEq

/-- The JSON body of `POST /api/rate` (a missing field is `jnull`,
matching `dict.get`). -/
structure Payload where
  entrant_index : JVal
  taste : JVal
  presentation : JVal
  easy : JVal
  judge : JVal
deriving DecidableEq

/-- Handler of `POST /api/rate`. -/
def api_rate (db : DB) (p : Payload) (cookie : Option String) (now : Nat) :
    RateResp × DB :=
  match pyInt p.entrant_index, pyInt p.taste, pyInt p.presentation,
        pyInt p.easy, pyJudge p.judge with
  | some e, some t, some pr, some ea, some j =>
      if e < 0 ∨ (ENTRANTS.length : Int) ≤ e then (.err400 "Invalid entrant", db)
      else if t < 1 ∨ 5 < t ∨ pr < 1 ∨ 5 < pr ∨ ea < 1 ∨ 5 < ea then
        (.err400 "Scores must be 1–5", db)
      else (.ok, upsert db e t pr ea j (device_id_from_request cookie) now)
  | _, _, _, _, _ => (.err400 "Invalid payload", db)

/-- The JSON object returned inside `rating` by `/api/my-rating`. -/
structure MyRating where
  taste : Int
  presentation : Int
  easy : Int
  judge : Option String
deriving DecidableEq

inductive MyResp where
  | err400 (msg : String)
  | okRating (rating : Option MyRating)
deriving DecidableEq

/-- Handler of `GET /api/my-rating?entrant_index=...` (`arg` is the raw
query parameter, absent ↦ default "-1"). -/
def api_my_rating (db : DB) (arg : Option String) (cookie : Option String) : MyResp :=
  match pyIntOfString (arg.getD "-1") with
  | none => .err400 "Bad entrant index"
  | some e =>
      if e < 0 ∨ (ENTRANTS.length : Int) ≤ e then .okRating none
      else
        match db.rows.find? (fun r => r.hasKey e (device_id_from_request cookie)) with
        | none => .okRating none
        | some r => .okRating (some ⟨r.taste, r.presentation, r.easy, r.judge⟩)

/-- Accumulator of the SQL aggregation
`COUNT(*), SUM-parts of AVG(taste), AVG(presentation), AVG(easy)`. -/
structure Agg where
  votes : Nat
  sumTaste : Int
  sumPres : Int
  sumEasy : Int
deriving DecidableEq

def aggStep (a : Agg) (r : Row) : Agg :=
  { votes := a.votes + 1, sumTaste := a.sumTaste + r.taste,
    sumPres := a.sumPres + r.presentation, sumEasy := a.sumEasy + r.easy }

def aggregate (rs : List Row) : Agg := rs.foldl aggStep ⟨0, 0, 0, 0⟩

def Agg.sumTotal (a : Agg) : Int := a.sumTaste + a.sumPres + a.sumEasy

/-- Rows of the group `GROUP BY entrant_index = e`. -/
def entrantRatings (db : DB) (e : Int) : List Row :=
  db.rows.filter (fun r => r.entrant_index == e)

def aggOf (db : DB) (e : Int) : Agg := aggregate (entrantRatings db e)

/-- Round-half-even of the fraction a / b (for b > 0), as Python's
`round` does on ties; pure integer arithmetic. -/
def roundHalfEvenFrac (a : Int) (b : Nat) : Int :=
  if 2 * (a % (b : Int)) < (b : Int) then a / (b : Int)
  else if (b : Int) < 2 * (a % (b : Int)) then a / (b : Int) + 1
  else if (a / (b : Int)) % 2 = 0 then a / (b : Int) else a / (b : Int) + 1

/-- Half-even rounding of the exact rational mean s / n to hundredths: the
idealized "exact mean rounded to 2 decimals". The program itself rounds the
binary64 value of the mean (see `avgCentiFl`); the two agree except at
two-decimal ties of the exact mean whose double sits on the other side. -/
def avgCenti (s : Int) (n : Nat) : Int := roundHalfEvenFrac (100 * s) n

/-- The binade bracket of S / n for the binary64 quotient: the e2 (shifted
exponent, e2 = e + 60 where 2^e is the ulp) with
2^(e2-8) ≤ S / n < 2^(e2-7), searched over a range that covers every
quotient reachable from score data. -/
def findExp (S n : Nat) : Option Nat :=
  (List.range 121).find? (fun e2 =>
    decide (n * 2 ^ e2 ≤ S * 2 ^ 8 ∧ S * 2 ^ 7 < n * 2 ^ e2))

/-- `round(float(S) / n, 2)` in hundredths for S, n ≥ 0: SQLite's AVG over
an integer column performs one correctly rounded (nearest, ties-to-even)
binary64 division of the exact integer sum by the count, and Python's
`round(x, 2)` rounds the exact value of that double to two decimals,
half-even. The double is m·2^(e2-60), its 53-bit mantissa m obtained by
half-even rounding of the quotient scaled into [2^52, 2^53). -/
def avgCentiFlAux (S n : Nat) : Int :=
  match findExp S n with
  | some e2 =>
      if 60 ≤ e2 then
        100 * roundHalfEvenFrac (S : Int) (n * 2 ^ (e2 - 60)) * (2 : Int) ^ (e2 - 60)
      else
        roundHalfEvenFrac (100 * roundHalfEvenFrac ((S : Int) * 2 ^ (60 - e2)) n)
          (2 ^ (60 - e2))
  | none => roundHalfEvenFrac (100 * (S : Int)) n

/-- `round(AVG(...), 2)` in hundredths as the program computes it; a
negative sum mirrors by sign, as both binary64 rounding and decimal
rounding are symmetric. -/
def avgCentiFl (s : Int) (n : Nat) : Int :=
  if 0 ≤ s then avgCentiFlAux s.toNat n else -(avgCentiFlAux (-s).toNat n)

/-- One element of the `/api/leaderboard` JSON array; the four `avg` fields
are in hundredths (the emitted two-decimal number times 100). -/
structure LBEntry where
  name : String
  votes : Nat
  avg_taste_c : Int
  avg_presentation_c : Int
  avg_easy_c : Int
  avg_total_c : Int
deriving DecidableEq

def mkEntry (db : DB) (e : Int) : LBEntry :=
  let a := aggOf db e
  { name := entrantName e
    votes := a.votes
    avg_taste_c := avgCentiFl a.sumTaste a.votes
    avg_presentation_c := avgCentiFl a.sumPres a.votes
    avg_easy_c := avgCentiFl a.sumEasy a.votes
    avg_total_c := avgCentiFl a.sumTotal a.votes }

/-- A 40-rating table for entrant 0 with taste sum 107 (27 threes and 13
twos): the exact mean 2.675 sits on a two-decimal tie, while the binary64
value of the mean (≈ 2.67499999999999982) lies just below it. -/
def dbC4 : DB :=
  ⟨(List.range 27).map (fun i =>
      ⟨i, 0, 3, 3, 3, none, "a" ++ toString i, i⟩) ++
   (List.range 13).map (fun i =>
      ⟨27 + i, 0, 2, 2, 2, none, "b" ++ toString i, 27 + i⟩), 40⟩

/-- Vote count of the group, clamped to ≥ 1; every group produced by
`GROUP BY` is nonempty, so on actual group keys this is just the count. -/
def votesPos (db : DB) (e : Int) : Int := max ((aggOf db e).votes : Int) 1

/-- `avg_total` of group a ≥ `avg_total` of group b, by cross
multiplication (`ORDER BY avg_total DESC`). -/
def lbGe (db : DB) (a b : Int) : Prop :=
  (aggOf db b).sumTotal * votesPos db a ≤ (aggOf db a).sumTotal * votesPos db b

instance (db : DB) (a b : Int) : Decidable (lbGe db a b) :=
  inferInstanceAs (Decidable (_ ≤ _))

/-- The distinct entrant indices present in the table, ascending
(SQLite's `GROUP BY` output order). -/
def lbKeys (db : DB) : List Int :=
  ((db.rows.map (fun r => r.entrant_index)).dedup).insertionSort (fun a b => a ≤ b)

/-- Group keys after `ORDER BY avg_total DESC`. -/
def lbOrder (db : DB) : List Int := (lbKeys db).insertionSort (lbGe db)

/-- Handler of `GET /api/leaderboard`. -/
def api_leaderboard (db : DB) : List LBEntry := (lbOrder db).map (mkEntry db)

/-- Single-character `str.replace('"', '""')`. -/
def dq : List Char → List Char
  | [] => []
  | c :: cs => if c = '"' then '"' :: '"' :: dq cs else c :: dq cs

/-- Wrap in double quotes after doubling the embedded quotes (used for
the entrant name and the judge). -/
def quoteDoubling (s : String) : String := "\"" ++ String.mk (dq s.toList) ++ "\""

/-- Wrap in double quotes with no doubling (what the source does to
`device_id`). -/
def quoteNoDoubling (s : String) : String := "\"" ++ s ++ "\""

/-- CSV header line of `/export.csv`. -/
def csvHeader : String :=
  String.intercalate ","
    ["id", "entrant_name", "taste", "presentation", "easy", "judge",
     "device_id", "created_at"] ++ "\n"

/-- One data line of `/export.csv`. -/
def renderRow (r : Row) : String :=
  String.intercalate ","
    [toString r.id,
     quoteDoubling (entrantName r.entrant_index),
     toString r.taste,
     toString r.presentation,
     toString r.easy,
     quoteDoubling (r.judge.getD ""),
     quoteNoDoubling r.device_id,
     toString r.created_at] ++ "\n"

/-- `ORDER BY created_at ASC`. -/
def sortRowsByCreated (rs : List Row) : List Row :=
  rs.insertionSort (fun a b => a.created_at ≤ b.created_at)

/-- Handler of `GET /export.csv`: the streamed lines in order. -/
def export_csv (db : DB) : List String :=
  csvHeader :: (sortRowsByCreated db.rows).map renderRow

/-- Inverse of quote doubling: reads a doubled body back; `none` on a
lone (undoubled) quote, i.e. on a malformed field body. -/
def unq : List Char → Option (List Char)
  | [] => some []
  | c :: cs =>
      if c = '"' then
        match cs with
        | c2 :: cs2 => if c2 = '"' then (unq cs2).map (fun l => '"' :: l) else none
        | [] => none
      else (unq cs).map (fun l => c :: l)

/-- The admin shared password (module constant default). -/
def ADMIN_PASSWORD : String := "MASTERCHEF2025"

/-- One request to the `/admin` surface. -/
inductive AdminReq where
  | get
  | postPw (pw : String)
  | logout
deriving DecidableEq

/-- What the `/admin` surface answers with. -/
inductive AdminPage where
  | loginPage (withError : Bool)
  | redirectToAdmin
  | resultsPage
deriving DecidableEq

/-- One request of the `admin` / `admin_logout` handlers: state is the
session's `is_admin` flag. -/
def adminStep (isAdmin : Bool) : AdminReq → Bool × AdminPage
  | .postPw pw =>
      if String.mk (pyStrip pw.toList) = ADMIN_PASSWORD then (true, .redirectToAdmin)
      else (isAdmin, .loginPage true)
  | .get => (isAdmin, if isAdmin then .resultsPage else .loginPage false)
  | .logout => (false, .redirectToAdmin)

/-- Run a session's requests, collecting the responses. -/
def adminRun (s : Bool) : List AdminReq → List AdminPage
  | [] => []
  | r :: rs => (adminStep s r).2 :: adminRun (adminStep s r).1 rs

/-- The `is_admin` flag after a list of requests. -/
def adminAuthAfter (s : Bool) (reqs : List AdminReq) : Bool :=
  reqs.foldl (fun b r => (adminStep b r).1) s

/-- Position j of the request list holds a POST carrying the correct
admin password. -/
def correctPostAt (reqs : List AdminReq) (j : Nat) : Prop :=
  ∃ pw, reqs[j]? = some (AdminReq.postPw pw) ∧
    String.mk (pyStrip pw.toList) = ADMIN_PASSWORD

/-- No logout request occurs strictly after position j. -/
def noLogoutAfter (reqs : List AdminReq) (j : Nat) : Prop :=
  ∀ l, j < l → l < reqs.length → reqs[l]? ≠ some AdminReq.logout

/-- All rows lie at a valid entrant index (every row the API inserts
does, since the index is validated before the INSERT). -/
def WF (db : DB) : Prop :=
  ∀ r ∈ db.rows, 0 ≤ r.entrant_index ∧ r.entrant_index < (ENTRANTS.length : Int)

/-- Round-half-even of a rational to an integer: the spec's reading of
Python `round` on ties; used only to state what the integer arithmetic of
`roundHalfEvenFrac` implements. -/
def roundHalfEvenQ (x : ℚ) : Int :=
  if x - (⌊x⌋ : ℚ) < 1/2 then ⌊x⌋
  else if (1 : ℚ)/2 < x - (⌊x⌋ : ℚ) then ⌊x⌋ + 1
  else if ⌊x⌋ % 2 = 0 then ⌊x⌋ else ⌊x⌋ + 1

/-- The spec's "rounded to 2 decimal places", on rationals. -/
def round2Spec (x : ℚ) : ℚ := ((roundHalfEvenQ (100 * x) : Int) : ℚ) / 100

/-- The exact mean total score of a group as a rational
(`AVG(taste + presentation + easy)`). -/
def avgTotalQ (db : DB) (e : Int) : ℚ :=
  ((aggOf db e).sumTotal : ℚ) / (((aggOf db e).votes : Nat) : ℚ)

instance : IsTotal Row (fun a b => a.created_at ≤ b.created_at) :=
  ⟨fun a b => Nat.le_total a.created_at b.created_at⟩

instance : IsTrans Row (fun a b => a.created_at ≤ b.created_at) :=
  ⟨fun _ _ _ h1 h2 => Nat.le_trans h1 h2⟩

instance (db : DB) : IsTotal Int (lbGe db) :=
  ⟨fun a b => Int.le_total ((aggOf db b).sumTotal * votesPos db a)
    ((aggOf db a).sumTotal * votesPos db b)⟩

instance (db : DB) : IsTrans Int (lbGe db) := by
  refine ⟨fun a b c h1 h2 => ?_⟩
  unfold lbGe at h1 h2 ⊢
  have hpa : (0 : Int) < votesPos db a := lt_of_lt_of_le zero_lt_one (le_max_right _ _)
  have hpb : (0 : Int) < votesPos db b := lt_of_lt_of_le zero_lt_one (le_max_right _ _)
  have hpc : (0 : Int) < votesPos db c := lt_of_lt_of_le zero_lt_one (le_max_right _ _)
  have h1' := mul_le_mul_of_nonneg_right h1 (le_of_lt hpc)
  have h2' := mul_le_mul_of_nonneg_right h2 (le_of_lt hpa)
  have key : votesPos db b * ((aggOf db c).sumTotal * votesPos db a) ≤
      votesPos db b * ((aggOf db a).sumTotal * votesPos db c) := by
    ring_nf
    ring_nf at h1' h2'
    linarith
  exact le_of_mul_le_mul_left key hpb

/-! ### Basic lemmas about the rating upsert -/

lemma hasKey_iff (r : Row) (e : Int) (dev : String) :
    r.hasKey e dev = true ↔ (r.entrant_index = e ∧ r.device_id = dev) := by
  simp [Row.hasKey]

lemma entrants_length_cast : (ENTRANTS.length : Int) = 13 := by decide

lemma api_rate_valid (db : DB) (pl : Payload) (cookie : Option String) (now : Nat)
    (e t p y : Int) (j : Option String)
    (hpe : pyInt pl.entrant_index = some e) (hpt : pyInt pl.taste = some t)
    (hpp : pyInt pl.presentation = some p) (hpy : pyInt pl.easy = some y)
    (hpj : pyJudge pl.judge = some j)
    (he : 0 ≤ e ∧ e < (ENTRANTS.length : Int))
    (hr : 1 ≤ t ∧ t ≤ 5 ∧ 1 ≤ p ∧ p ≤ 5 ∧ 1 ≤ y ∧ y ≤ 5) :
    api_rate db pl cookie now =
      (.ok, upsert db e t p y j (device_id_from_request cookie) now) := by
  rw [entrants_length_cast] at he
  simp only [api_rate, hpe, hpt, hpp, hpy, hpj, entrants_length_cast]
  rw [if_neg (by omega), if_neg (by omega)]

lemma upsert_of_not_exists (db : DB) (e t p y : Int) (j : Option String)
    (dev : String) (now : Nat)
    (h : ∀ r ∈ db.rows, r.hasKey e dev = false) :
    upsert db e t p y j dev now =
      ⟨db.rows ++ [{ id := db.nextId, entrant_index := e, taste := t,
                     presentation := p, easy := y, judge := j, device_id := dev,
                     created_at := now }], db.nextId + 1⟩ := by
  have hany : db.rows.any (fun r => r.hasKey e dev) = false :=
    List.any_eq_false.mpr (by intro x hx; simp [h x hx])
  simp [upsert, hany]

lemma upsert_of_exists (db : DB) (e t p y : Int) (j : Option String)
    (dev : String) (now : Nat)
    (h : db.rows.any (fun r => r.hasKey e dev) = true) :
    upsert db e t p y j dev now =
      { db with rows := db.rows.map (fun r =>
          if r.hasKey e dev then
            { r with taste := t, presentation := p, easy := y, judge := j }
          else r) } := by
  simp [upsert, h]

lemma rate_twice (db : DB) (cookie : Option String) (pl1 pl2 : Payload)
    (now1 now2 : Nat) (e t1 p1 y1 t2 p2 y2 : Int) (j1 j2 : Option String)
    (h1e : pyInt pl1.entrant_index = some e) (h1t : pyInt pl1.taste = some t1)
    (h1p : pyInt pl1.presentation = some p1) (h1y : pyInt pl1.easy = some y1)
    (h1j : pyJudge pl1.judge = some j1)
    (h2e : pyInt pl2.entrant_index = some e) (h2t : pyInt pl2.taste = some t2)
    (h2p : pyInt pl2.presentation = some p2) (h2y : pyInt pl2.easy = some y2)
    (h2j : pyJudge pl2.judge = some j2)
    (he : 0 ≤ e ∧ e < (ENTRANTS.length : Int))
    (hr1 : 1 ≤ t1 ∧ t1 ≤ 5 ∧ 1 ≤ p1 ∧ p1 ≤ 5 ∧ 1 ≤ y1 ∧ y1 ≤ 5)
    (hr2 : 1 ≤ t2 ∧ t2 ≤ 5 ∧ 1 ≤ p2 ∧ p2 ≤ 5 ∧ 1 ≤ y2 ∧ y2 ≤ 5)
    (hfresh : ∀ r ∈ db.rows, r.hasKey e (device_id_from_request cookie) = false) :
    (api_rate db pl1 cookie now1).1 = .ok ∧
    (api_rate (api_rate db pl1 cookie now1).2 pl2 cookie now2).1 = .ok ∧
    (api_rate (api_rate db pl1 cookie now1).2 pl2 cookie now2).2.rows.filter
        (fun r => r.hasKey e (device_id_from_request cookie)) =
      [{ id := db.nextId, entrant_index := e, taste := t2, presentation := p2,
         easy := y2, judge := j2, device_id := device_id_from_request cookie,
         created_at := now1 }] := by
  set dev := device_id_from_request cookie with hdev
  rw [api_rate_valid db pl1 cookie now1 e t1 p1 y1 j1 h1e h1t h1p h1y h1j he hr1]
  rw [upsert_of_not_exists db e t1 p1 y1 j1 dev now1 hfresh]
  set row1 : Row := { id := db.nextId, entrant_index := e, taste := t1,
                      presentation := p1, easy := y1, judge := j1,
                      device_id := dev, created_at := now1 } with hrow1
  set db1 : DB := ⟨db.rows ++ [row1], db.nextId + 1⟩ with hdb1
  rw [show ((RateResp.ok, db1) : RateResp × DB).2 = db1 from rfl]
  rw [api_rate_valid db1 pl2 cookie now2 e t2 p2 y2 j2 h2e h2t h2p h2y h2j he hr2]
  have hkey1 : row1.hasKey e dev = true := by
    rw [hasKey_iff]; exact ⟨rfl, rfl⟩
  have hany : db1.rows.any (fun r => r.hasKey e dev) = true := by
    refine List.any_eq_true.mpr ⟨row1, ?_, hkey1⟩
    rw [hdb1]; exact List.mem_append_right _ (List.mem_singleton.mpr rfl)
  rw [upsert_of_exists db1 e t2 p2 y2 j2 dev now2 hany]
  refine ⟨rfl, rfl, ?_⟩
  have hpf : ∀ r ∈ db1.rows,
      ((if r.hasKey e dev then
          { r with taste := t2, presentation := p2, easy := y2, judge := j2 }
        else r).hasKey e dev) = r.hasKey e dev := by
    intro r _
    by_cases hk : r.hasKey e dev = true
    · rw [if_pos hk, hk]
      rw [hasKey_iff] at hk ⊢
      exact ⟨hk.1, hk.2⟩
    · rw [if_neg hk]
  rw [List.filter_map]
  rw [List.filter_congr (by intro a ha; exact hpf a ha)]
  have hfil : db1.rows.filter (fun r => r.hasKey e dev) = [row1] := by
    rw [hdb1]
    show (db.rows ++ [row1]).filter (fun r => r.hasKey e dev) = [row1]
    rw [List.filter_append]
    rw [List.filter_eq_nil_iff.mpr (by intro a ha; simp [hfresh a ha])]
    simp [hkey1]
  rw [hfil]
  simp only [List.map_cons, List.map_nil, if_pos hkey1]

/-- Claim C1: after two submissions from the same device for the same valid
entrant, both succeed, exactly one row is stored for that (entrant, device)
key, and that row carries the second submission's scores and judge while
keeping the creation timestamp of the first insert. -/
theorem spec_C1 (db : DB) (cookie : Option String) (pl1 pl2 : Payload)
    (now1 now2 : Nat) (e t1 p1 y1 t2 p2 y2 : Int) (j1 j2 : Option String)
    (h1e : pyInt pl1.entrant_index = some e) (h1t : pyInt pl1.taste = some t1)
    (h1p : pyInt pl1.presentation = some p1) (h1y : pyInt pl1.easy = some y1)
    (h1j : pyJudge pl1.judge = some j1)
    (h2e : pyInt pl2.entrant_index = some e) (h2t : pyInt pl2.taste = some t2)
    (h2p : pyInt pl2.presentation = some p2) (h2y : pyInt pl2.easy = some y2)
    (h2j : pyJudge pl2.judge = some j2)
    (he : 0 ≤ e ∧ e < (ENTRANTS.length : Int))
    (hr1 : 1 ≤ t1 ∧ t1 ≤ 5 ∧ 1 ≤ p1 ∧ p1 ≤ 5 ∧ 1 ≤ y1 ∧ y1 ≤ 5)
    (hr2 : 1 ≤ t2 ∧ t2 ≤ 5 ∧ 1 ≤ p2 ∧ p2 ≤ 5 ∧ 1 ≤ y2 ∧ y2 ≤ 5)
    (hfresh : ∀ r ∈ db.rows, r.hasKey e (device_id_from_request cookie) = false) :
    (api_rate db pl1 cookie now1).1 = .ok ∧
    (api_rate (api_rate db pl1 cookie now1).2 pl2 cookie now2).1 = .ok ∧
    ((api_rate (api_rate db pl1 cookie now1).2 pl2 cookie now2).2.rows.filter
        (fun r => r.hasKey e (device_id_from_request cookie))).length = 1 ∧
    ∀ r ∈ (api_rate (api_rate db pl1 cookie now1).2 pl2 cookie now2).2.rows,
      r.hasKey e (device_id_from_request cookie) = true →
        r.taste = t2 ∧ r.presentation = p2 ∧ r.easy = y2 ∧ r.judge = j2 ∧
        r.created_at = now1 := by
  obtain ⟨ha, hb, hfil⟩ := rate_twice db cookie pl1 pl2 now1 now2 e t1 p1 y1
    t2 p2 y2 j1 j2 h1e h1t h1p h1y h1j h2e h2t h2p h2y h2j he hr1 hr2 hfresh
  refine ⟨ha, hb, by rw [hfil]; rfl, ?_⟩
  intro r hr hk
  have hmem : r ∈ (api_rate (api_rate db pl1 cookie now1).2 pl2 cookie
      now2).2.rows.filter (fun x => x.hasKey e (device_id_from_request cookie)) :=
    List.mem_filter.mpr ⟨hr, hk⟩
  rw [hfil, List.mem_singleton] at hmem
  rw [hmem]
  exact ⟨rfl, rfl, rfl, rfl, rfl⟩

theorem spec_C1_witness :
    (∀ r ∈ (⟨[], 0⟩ : DB).rows, r.hasKey 0 (device_id_from_request (some "d1")) = false) ∧
    (((api_rate (api_rate ⟨[], 0⟩ ⟨.jint 0, .jint 5, .jint 4, .jint 3, .jstr "Ann"⟩
          (some "d1") 10).2 ⟨.jint 0, .jint 2, .jint 3, .jint 4, .jstr "Bob"⟩
          (some "d1") 20).2.rows.filter
        (fun r => r.hasKey 0 (device_id_from_request (some "d1")))).length = 1 ∧
      ∀ r ∈ (api_rate (api_rate ⟨[], 0⟩ ⟨.jint 0, .jint 5, .jint 4, .jint 3, .jstr "Ann"⟩
          (some "d1") 10).2 ⟨.jint 0, .jint 2, .jint 3, .jint 4, .jstr "Bob"⟩
          (some "d1") 20).2.rows,
        r.hasKey 0 (device_id_from_request (some "d1")) = true →
          r.taste = 2 ∧ r.presentation = 3 ∧ r.easy = 4 ∧ r.judge = some "Bob" ∧
          r.created_at = 10) :=
  ⟨by decide,
   (spec_C1 ⟨[], 0⟩ (some "d1") ⟨.jint 0, .jint 5, .jint 4, .jint 3, .jstr "Ann"⟩
      ⟨.jint 0, .jint 2, .jint 3, .jint 4, .jstr "Bob"⟩ 10 20 0 5 4 3 2 3 4
      (some "Ann") (some "Bob") rfl rfl rfl rfl (by decide) rfl rfl rfl rfl
      (by decide) (by decide) (by decide) (by decide) (by decide)).2.2⟩

/-- Claim C2: a submission whose (coerced, integer) entrant index is out of
range, or one of whose (coerced, integer) scores lies outside [1,5], gets a
structured 400 error and leaves the ratings table completely unchanged. -/
theorem spec_C2 (db : DB) (cookie : Option String) (now : Nat) (pl : Payload)
    (e t p y : Int) (j : Option String)
    (hpe : pyInt pl.entrant_index = some e) (hpt : pyInt pl.taste = some t)
    (hpp : pyInt pl.presentation = some p) (hpy : pyInt pl.easy = some y)
    (hpj : pyJudge pl.judge = some j)
    (hbad : (e < 0 ∨ (ENTRANTS.length : Int) ≤ e) ∨
      t < 1 ∨ 5 < t ∨ p < 1 ∨ 5 < p ∨ y < 1 ∨ 5 < y) :
    (∃ msg, (api_rate db pl cookie now).1 = RateResp.err400 msg) ∧
    (api_rate db pl cookie now).2 = db := by
  simp only [api_rate, hpe, hpt, hpp, hpy, hpj]
  by_cases hE : e < 0 ∨ (ENTRANTS.length : Int) ≤ e
  · rw [if_pos hE]
    exact ⟨⟨"Invalid entrant", rfl⟩, rfl⟩
  · rw [if_neg hE, if_pos (by tauto)]
    exact ⟨⟨"Scores must be 1–5", rfl⟩, rfl⟩

theorem spec_C2_witness :
    ((6 : Int) < 1 ∨ (5 : Int) < 6) ∧
    ((∃ msg, (api_rate ⟨[⟨0, 0, 5, 4, 3, none, "d1", 10⟩], 1⟩
        ⟨.jint 0, .jint 6, .jint 4, .jint 3, .jnull⟩ (some "d1") 20).1 =
          RateResp.err400 msg) ∧
      (api_rate ⟨[⟨0, 0, 5, 4, 3, none, "d1", 10⟩], 1⟩
        ⟨.jint 0, .jint 6, .jint 4, .jint 3, .jnull⟩ (some "d1") 20).2 =
          ⟨[⟨0, 0, 5, 4, 3, none, "d1", 10⟩], 1⟩) :=
  ⟨by decide,
   spec_C2 ⟨[⟨0, 0, 5, 4, 3, none, "d1", 10⟩], 1⟩ (some "d1") 20
     ⟨.jint 0, .jint 6, .jint 4, .jint 3, .jnull⟩ 0 6 4 3 none
     rfl rfl rfl rfl (by decide) (by decide)⟩

/-- Counterexample to claim C9 as stated: the sentinel used for a
cookie-less request is "anon", not "anonymous". -/
theorem spec_C9_counterexample :
    device_id_from_request none ≠ "anonymous" ∧
    device_id_from_request none = "anon" := by decide

/-- Claim C9 (amended: the sentinel string is "anon", not "anonymous"):
cookie-less requests use the device identifier "anon", so two cookie-less
submissions for the same entrant collide into a single stored row keyed by
"anon". -/
theorem spec_C9 :
    device_id_from_request none = "anon" ∧
    (∀ s : String, s ≠ "" → device_id_from_request (some s) = s) ∧
    (∀ (db : DB) (pl1 pl2 : Payload) (now1 now2 : Nat)
       (e t1 p1 y1 t2 p2 y2 : Int) (j1 j2 : Option String),
       pyInt pl1.entrant_index = some e → pyInt pl1.taste = some t1 →
       pyInt pl1.presentation = some p1 → pyInt pl1.easy = some y1 →
       pyJudge pl1.judge = some j1 →
       pyInt pl2.entrant_index = some e → pyInt pl2.taste = some t2 →
       pyInt pl2.presentation = some p2 → pyInt pl2.easy = some y2 →
       pyJudge pl2.judge = some j2 →
       0 ≤ e ∧ e < (ENTRANTS.length : Int) →
       1 ≤ t1 ∧ t1 ≤ 5 ∧ 1 ≤ p1 ∧ p1 ≤ 5 ∧ 1 ≤ y1 ∧ y1 ≤ 5 →
       1 ≤ t2 ∧ t2 ≤ 5 ∧ 1 ≤ p2 ∧ p2 ≤ 5 ∧ 1 ≤ y2 ∧ y2 ≤ 5 →
       (∀ r ∈ db.rows, r.hasKey e "anon" = false) →
       (api_rate db pl1 none now1).1 = .ok ∧
       (api_rate (api_rate db pl1 none now1).2 pl2 none now2).1 = .ok ∧
       (api_rate (api_rate db pl1 none now1).2 pl2 none now2).2.rows.filter
           (fun r => r.hasKey e "anon") =
         [{ id := db.nextId, entrant_index := e, taste := t2,
            presentation := p2, easy := y2, judge := j2, device_id := "anon",
            created_at := now1 }]) := by
  refine ⟨rfl, ?_, ?_⟩
  · intro s hs
    simp [device_id_from_request, hs]
  · intro db pl1 pl2 now1 now2 e t1 p1 y1 t2 p2 y2 j1 j2
      h1e h1t h1p h1y h1j h2e h2t h2p h2y h2j he hr1 hr2 hfresh
    exact rate_twice db none pl1 pl2 now1 now2 e t1 p1 y1 t2 p2 y2 j1 j2
      h1e h1t h1p h1y h1j h2e h2t h2p h2y h2j he hr1 hr2 hfresh

theorem spec_C9_witness :
    device_id_from_request none = "anon" ∧
    (api_rate (api_rate ⟨[], 0⟩ ⟨.jint 1, .jint 5, .jint 5, .jint 5, .jnull⟩
        none 3).2 ⟨.jint 1, .jint 1, .jint 2, .jint 3, .jnull⟩ none 4).2.rows.filter
      (fun r => r.hasKey 1 "anon") =
    [{ id := 0, entrant_index := 1, taste := 1, presentation := 2, easy := 3,
       judge := none, device_id := "anon", created_at := 3 }] :=
  ⟨spec_C9.1,
   (spec_C9.2.2 ⟨[], 0⟩ ⟨.jint 1, .jint 5, .jint 5, .jint 5, .jnull⟩
     ⟨.jint 1, .jint 1, .jint 2, .jint 3, .jnull⟩ 3 4 1 5 5 5 1 2 3 none none
     rfl rfl rfl rfl rfl rfl rfl rfl rfl rfl (by decide) (by decide)
     (by decide) (by decide)).2.2⟩

/-- Claim C10: score values that Python coerces to an in-range integer are
accepted, and the stored row holds the coerced values; in particular a
decimal JSON number m/10^k coerces to its truncation toward zero (and a
numeric string to its parsed value, via `pyInt (.jstr s) = pyIntOfString s`). -/
theorem spec_C10 (db : DB) (cookie : Option String) (now : Nat) (pl : Payload)
    (e n1 n2 n3 : Int) (j : Option String)
    (hpe : pyInt pl.entrant_index = some e)
    (hpt : pyInt pl.taste = some n1) (hpp : pyInt pl.presentation = some n2)
    (hpy : pyInt pl.easy = some n3) (hpj : pyJudge pl.judge = some j)
    (he : 0 ≤ e ∧ e < (ENTRANTS.length : Int))
    (hr : 1 ≤ n1 ∧ n1 ≤ 5 ∧ 1 ≤ n2 ∧ n2 ≤ 5 ∧ 1 ≤ n3 ∧ n3 ≤ 5) :
    (api_rate db pl cookie now).1 = .ok ∧
    (∃ r ∈ (api_rate db pl cookie now).2.rows,
        r.hasKey e (device_id_from_request cookie) = true ∧
        r.taste = n1 ∧ r.presentation = n2 ∧ r.easy = n3 ∧ r.judge = j) ∧
    (∀ (m : Int) (k : Nat), pyInt (.jdec m k) = some (truncTowardZero m (10 ^ k))) := by
  rw [api_rate_valid db pl cookie now e n1 n2 n3 j hpe hpt hpp hpy hpj he hr]
  refine ⟨rfl, ?_, fun m k => rfl⟩
  set dev := device_id_from_request cookie with hdev
  cases hex : db.rows.any (fun r => r.hasKey e dev) with
  | true =>
      rw [show ((RateResp.ok, upsert db e n1 n2 n3 j dev now) :
            RateResp × DB).2 = upsert db e n1 n2 n3 j dev now from rfl]
      rw [upsert_of_exists db e n1 n2 n3 j dev now hex]
      obtain ⟨r0, hr0, hk0⟩ := List.any_eq_true.mp hex
      have hbeta : (fun r => if r.hasKey e dev then
            ({ r with taste := n1, presentation := n2, easy := n3, judge := j } : Row)
          else r) r0 =
          { r0 with taste := n1, presentation := n2, easy := n3, judge := j } := by
        simp only [if_pos hk0]
      have hmem := List.mem_map_of_mem (fun r => if r.hasKey e dev then
          ({ r with taste := n1, presentation := n2, easy := n3, judge := j } : Row)
        else r) hr0
      rw [hbeta] at hmem
      refine ⟨_, hmem, ?_, rfl, rfl, rfl, rfl⟩
      rw [hasKey_iff] at hk0 ⊢
      exact ⟨hk0.1, hk0.2⟩
  | false =>
      have hfresh : ∀ r ∈ db.rows, r.hasKey e dev = false := by
        intro r hrr
        have := List.any_eq_false.mp hex r hrr
        simpa using this
      rw [show ((RateResp.ok, upsert db e n1 n2 n3 j dev now) :
            RateResp × DB).2 = upsert db e n1 n2 n3 j dev now from rfl]
      rw [upsert_of_not_exists db e n1 n2 n3 j dev now hfresh]
      refine ⟨{ id := db.nextId, entrant_index := e, taste := n1,
                presentation := n2, easy := n3, judge := j, device_id := dev,
                created_at := now }, ?_, ?_, rfl, rfl, rfl, rfl⟩
      · exact List.mem_append_right _ (List.mem_singleton.mpr rfl)
      · rw [hasKey_iff]
        exact ⟨rfl, rfl⟩

theorem spec_C10_witness :
    pyInt (.jdec 47 1) = some 4 ∧ pyInt (.jstr "4") = some 4 ∧
    ((api_rate ⟨[], 0⟩ ⟨.jstr " 0 ", .jdec 47 1, .jstr "4", .jint 3, .jnull⟩
        none 9).1 = .ok ∧
      (∃ r ∈ (api_rate ⟨[], 0⟩ ⟨.jstr " 0 ", .jdec 47 1, .jstr "4", .jint 3, .jnull⟩
          none 9).2.rows,
        r.hasKey 0 (device_id_from_request none) = true ∧
        r.taste = 4 ∧ r.presentation = 4 ∧ r.easy = 3 ∧ r.judge = none)) :=
  ⟨by decide, by decide,
   (spec_C10 ⟨[], 0⟩ none 9 ⟨.jstr " 0 ", .jdec 47 1, .jstr "4", .jint 3, .jnull⟩
      0 4 4 3 none (by decide) (by decide) (by decide) rfl rfl (by decide)
      (by decide)).1,
   (spec_C10 ⟨[], 0⟩ none 9 ⟨.jstr " 0 ", .jdec 47 1, .jstr "4", .jint 3, .jnull⟩
      0 4 4 3 none (by decide) (by decide) (by decide) rfl rfl (by decide)
      (by decide)).2.1⟩

/-- Claim C6: with an integer entrant index the own-rating endpoint always
answers successfully — the device's stored rating when one exists, an
explicit null when the index is out of range or no rating exists — and it
returns an error exactly when the query parameter is not an integer. -/
theorem spec_C6 (db : DB) (arg cookie : Option String) :
    ((∃ m, api_my_rating db arg cookie = .err400 m) ↔
      pyIntOfString (arg.getD "-1") = none) ∧
    (∀ n : Int, pyIntOfString (arg.getD "-1") = some n →
      ((n < 0 ∨ (ENTRANTS.length : Int) ≤ n) →
        api_my_rating db arg cookie = .okRating none) ∧
      (¬(n < 0 ∨ (ENTRANTS.length : Int) ≤ n) →
        (db.rows.find? (fun r => r.hasKey n (device_id_from_request cookie)) = none →
          api_my_rating db arg cookie = .okRating none) ∧
        (∀ r, db.rows.find?
            (fun x => x.hasKey n (device_id_from_request cookie)) = some r →
          api_my_rating db arg cookie =
            .okRating (some ⟨r.taste, r.presentation, r.easy, r.judge⟩)))) := by
  cases hparse : pyIntOfString (arg.getD "-1") with
  | none =>
      refine ⟨?_, ?_⟩
      · refine iff_of_true ⟨"Bad entrant index", ?_⟩ rfl
        simp only [api_my_rating, hparse]
      · intro n hn
        exact Option.noConfusion hn
  | some k =>
      refine ⟨?_, ?_⟩
      · refine iff_of_false ?_ (by simp)
        rintro ⟨m, hm⟩
        rw [show api_my_rating db arg cookie =
            (if k < 0 ∨ (ENTRANTS.length : Int) ≤ k then .okRating none
             else
               match db.rows.find?
                   (fun r => r.hasKey k (device_id_from_request cookie)) with
               | none => .okRating none
               | some r =>
                   .okRating (some ⟨r.taste, r.presentation, r.easy, r.judge⟩))
          from by simp only [api_my_rating, hparse]] at hm
        by_cases hE : k < 0 ∨ (ENTRANTS.length : Int) ≤ k
        · rw [if_pos hE] at hm
          cases hm
        · rw [if_neg hE] at hm
          cases hfind : db.rows.find?
              (fun r => r.hasKey k (device_id_from_request cookie)) with
          | none => rw [hfind] at hm; cases hm
          | some r => rw [hfind] at hm; cases hm
      · intro n hn
        injection hn with hkn
        subst hkn
        refine ⟨?_, ?_⟩
        · intro hE
          simp only [api_my_rating, hparse]
          rw [if_pos hE]
        · intro hE
          refine ⟨?_, ?_⟩
          · intro hfind
            simp only [api_my_rating, hparse]
            rw [if_neg hE, hfind]
          · intro r hfind
            simp only [api_my_rating, hparse]
            rw [if_neg hE, hfind]

theorem spec_C6_witness :
    (pyIntOfString "2" = some 2) ∧
    api_my_rating ⟨[⟨7, 2, 3, 4, 5, some "Jo", "d2", 11⟩], 8⟩ (some "2")
      (some "d2") = .okRating (some ⟨3, 4, 5, some "Jo"⟩) ∧
    api_my_rating ⟨[⟨7, 2, 3, 4, 5, some "Jo", "d2", 11⟩], 8⟩ (some "99")
      (some "d2") = .okRating none ∧
    (∃ m, api_my_rating ⟨[⟨7, 2, 3, 4, 5, some "Jo", "d2", 11⟩], 8⟩ (some "zz")
      (some "d2") = .err400 m) :=
  ⟨by decide,
   (((spec_C6 ⟨[⟨7, 2, 3, 4, 5, some "Jo", "d2", 11⟩], 8⟩ (some "2")
       (some "d2")).2 2 (by decide)).2 (by decide)).2
     ⟨7, 2, 3, 4, 5, some "Jo", "d2", 11⟩ (by decide),
   ((spec_C6 ⟨[⟨7, 2, 3, 4, 5, some "Jo", "d2", 11⟩], 8⟩ (some "99")
       (some "d2")).2 99 (by decide)).1 (by decide),
   (spec_C6 ⟨[⟨7, 2, 3, 4, 5, some "Jo", "d2", 11⟩], 8⟩ (some "zz")
       (some "d2")).1.mpr (by decide)⟩

lemma unq_dq (cs : List Char) : unq (dq cs) = some cs := by
  induction cs with
  | nil => rfl
  | cons c cs ih =>
      by_cases hc : c = '"'
      · subst hc
        have hdq : dq ('"' :: cs) = '"' :: '"' :: dq cs := by simp [dq]
        rw [hdq]
        unfold unq
        simp [ih]
      · have hdq : dq (c :: cs) = c :: dq cs := by simp [dq, hc]
        rw [hdq]
        unfold unq
        rw [if_neg hc, ih]
        rfl

/-- Counterexample to claim C5 as stated: the device identifier field is
quoted without doubling its embedded quotes, so for device id a"b the
emitted row differs from the row that quote-doubling all three text fields
would produce. -/
theorem spec_C5_counterexample :
    renderRow ⟨1, 0, 5, 4, 3, none, "a\"b", 7⟩ =
      "1,\"Javier\",5,4,3,\"\",\"a\"b\",7\n" ∧
    renderRow ⟨1, 0, 5, 4, 3, none, "a\"b", 7⟩ ≠
      "1," ++ quoteDoubling "Javier" ++ ",5,4,3," ++ quoteDoubling "" ++ "," ++
        quoteDoubling "a\"b" ++ ",7\n" := by
  refine ⟨by decide, by decide⟩

/-- Claim C5 (amended: only the entrant name and judge fields are emitted
with quote-doubling; the device identifier is merely wrapped in quotes, so
an embedded quote there yields a malformed field): name and judge bodies
are doubled — doubling being losslessly invertible — while the device body
is the raw string, and a raw body holding a quote does not parse back. -/
theorem spec_C5 :
    (∀ r : Row, renderRow r =
      String.intercalate ","
        [toString r.id,
         "\"" ++ String.mk (dq (entrantName r.entrant_index).toList) ++ "\"",
         toString r.taste, toString r.presentation, toString r.easy,
         "\"" ++ String.mk (dq (r.judge.getD "").toList) ++ "\"",
         "\"" ++ r.device_id ++ "\"",
         toString r.created_at] ++ "\n") ∧
    (∀ s : String, unq (dq s.toList) = some s.toList) ∧
    unq ("a\"b".toList) = none :=
  ⟨fun _ => rfl, fun s => unq_dq s.toList, by decide⟩

/-- Claim C8: the CSV export is the fixed header line followed by exactly
one rendered line per stored rating, the data lines being a permutation of
the table sorted ascending by creation timestamp; the header is present
even for an empty table. -/
theorem spec_C8 (db : DB) :
    (sortRowsByCreated db.rows).Perm db.rows ∧
    (sortRowsByCreated db.rows).Pairwise (fun a b => a.created_at ≤ b.created_at) ∧
    export_csv db = csvHeader :: (sortRowsByCreated db.rows).map renderRow ∧
    (export_csv db).length = db.rows.length + 1 ∧
    (export_csv db).head? = some csvHeader := by
  refine ⟨List.perm_insertionSort _ _, List.sorted_insertionSort _ _, rfl, ?_, rfl⟩
  show (csvHeader :: (sortRowsByCreated db.rows).map renderRow).length =
    db.rows.length + 1
  rw [List.length_cons, List.length_map]
  have hp : (sortRowsByCreated db.rows).length = db.rows.length := by
    unfold sortRowsByCreated
    exact (List.perm_insertionSort _ _).length_eq
  rw [hp]

theorem spec_C8_witness :
    export_csv ⟨[], 0⟩ = [csvHeader] ∧
    (export_csv ⟨[⟨1, 0, 5, 4, 3, none, "d1", 9⟩, ⟨2, 1, 1, 2, 3, none, "d1", 4⟩], 3⟩).length
      = 2 + 1 :=
  ⟨by decide,
   (spec_C8 ⟨[⟨1, 0, 5, 4, 3, none, "d1", 9⟩, ⟨2, 1, 1, 2, 3, none, "d1", 4⟩], 3⟩).2.2.2.1⟩

/-! ### Leaderboard aggregation lemmas -/

lemma aggregate_foldl (a : Agg) (rs : List Row) :
    rs.foldl aggStep a =
      ⟨a.votes + rs.length,
       a.sumTaste + (rs.map (fun r => r.taste)).sum,
       a.sumPres + (rs.map (fun r => r.presentation)).sum,
       a.sumEasy + (rs.map (fun r => r.easy)).sum⟩ := by
  induction rs generalizing a with
  | nil => simp
  | cons r rs ih =>
      rw [List.foldl_cons, ih]
      simp only [aggStep, List.length_cons, List.map_cons, List.sum_cons,
        Agg.mk.injEq]
      refine ⟨by omega, by ring, by ring, by ring⟩

lemma aggregate_eq (rs : List Row) :
    aggregate rs =
      ⟨rs.length, (rs.map (fun r => r.taste)).sum,
       (rs.map (fun r => r.presentation)).sum,
       (rs.map (fun r => r.easy)).sum⟩ := by
  unfold aggregate
  rw [aggregate_foldl]
  simp

lemma lbOrder_perm_dedup (db : DB) :
    (lbOrder db).Perm ((db.rows.map (fun r => r.entrant_index)).dedup) := by
  unfold lbOrder lbKeys
  exact (List.perm_insertionSort _ _).trans (List.perm_insertionSort _ _)

lemma mem_lbOrder (db : DB) (e : Int) :
    e ∈ lbOrder db ↔ ∃ r ∈ db.rows, r.entrant_index = e := by
  rw [(lbOrder_perm_dedup db).mem_iff, List.mem_dedup, List.mem_map]

lemma lbOrder_nodup (db : DB) : (lbOrder db).Nodup :=
  ((lbOrder_perm_dedup db).nodup_iff).mpr (List.nodup_dedup _)

lemma votes_pos_of_mem (db : DB) (e : Int) (he : e ∈ lbOrder db) :
    0 < (aggOf db e).votes := by
  obtain ⟨r, hr, hre⟩ := (mem_lbOrder db e).mp he
  have hmem : r ∈ entrantRatings db e := by
    unfold entrantRatings
    refine List.mem_filter.mpr ⟨hr, ?_⟩
    simp [hre]
  unfold aggOf
  rw [aggregate_eq]
  exact List.length_pos.mpr (List.ne_nil_of_mem hmem)

lemma entrantName_injOn (a b : Int) (ha0 : 0 ≤ a) (ha1 : a < (ENTRANTS.length : Int))
    (hb0 : 0 ≤ b) (hb1 : b < (ENTRANTS.length : Int)) :
    entrantName a = entrantName b → a = b := by
  intro heq
  rw [entrants_length_cast] at ha1 hb1
  have hlta : a.toNat < 13 := by omega
  have hltb : b.toNat < 13 := by omega
  have hdec : ∀ x ∈ List.range 13, ∀ y ∈ List.range 13,
      ENTRANTS.getD x "" = ENTRANTS.getD y "" → x = y := by decide
  have := hdec a.toNat (List.mem_range.mpr hlta) b.toNat (List.mem_range.mpr hltb) heq
  omega

lemma lbGe_iff_avg (db : DB) (a b : Int) (ha : 0 < (aggOf db a).votes)
    (hb : 0 < (aggOf db b).votes) :
    lbGe db a b ↔ avgTotalQ db b ≤ avgTotalQ db a := by
  unfold lbGe avgTotalQ votesPos
  rw [max_eq_left (by omega : (1 : Int) ≤ ((aggOf db a).votes : Int)),
    max_eq_left (by omega : (1 : Int) ≤ ((aggOf db b).votes : Int))]
  rw [div_le_div_iff₀ (by exact_mod_cast hb) (by exact_mod_cast ha)]
  constructor
  · intro h
    exact_mod_cast h
  · intro h
    exact_mod_cast h

/-- Claim C3: the leaderboard lists exactly the entrants having at least
one stored rating — no duplicates, no zero-vote rows — and its order is
descending in the exact mean total score. -/
theorem spec_C3 (db : DB) (hwf : WF db) :
    api_leaderboard db = (lbOrder db).map (mkEntry db) ∧
    (lbOrder db).Nodup ∧
    (∀ e : Int, e ∈ lbOrder db ↔ ∃ r ∈ db.rows, r.entrant_index = e) ∧
    (∀ x ∈ api_leaderboard db, 1 ≤ x.votes) ∧
    ((api_leaderboard db).map (fun x => x.name)).Nodup ∧
    (lbOrder db).Pairwise (fun a b => avgTotalQ db b ≤ avgTotalQ db a) := by
  refine ⟨rfl, lbOrder_nodup db, mem_lbOrder db, ?_, ?_, ?_⟩
  · intro x hx
    obtain ⟨e, he, hxe⟩ := List.mem_map.mp hx
    rw [← hxe]
    exact votes_pos_of_mem db e he
  · have hmapmap : (api_leaderboard db).map (fun x => x.name) =
        (lbOrder db).map (fun e => entrantName e) := by
      unfold api_leaderboard
      rw [List.map_map]
      rfl
    rw [hmapmap]
    refine List.Nodup.map_on ?_ (lbOrder_nodup db)
    intro x hx y hy hxy
    obtain ⟨rx, hrx, hrex⟩ := (mem_lbOrder db x).mp hx
    obtain ⟨ry, hry, hrey⟩ := (mem_lbOrder db y).mp hy
    have hxb := hwf rx hrx
    have hyb := hwf ry hry
    exact entrantName_injOn x y (hrex ▸ hxb.1) (hrex ▸ hxb.2) (hrey ▸ hyb.1)
      (hrey ▸ hyb.2) hxy
  · have hsorted : (lbOrder db).Pairwise (lbGe db) := by
      unfold lbOrder
      exact List.sorted_insertionSort _ _
    refine List.Pairwise.imp_of_mem ?_ hsorted
    intro a b ha hb hab
    exact (lbGe_iff_avg db a b (votes_pos_of_mem db a ha)
      (votes_pos_of_mem db b hb)).mp hab

theorem spec_C3_witness :
    WF ⟨[⟨0, 2, 5, 4, 3, none, "d1", 10⟩, ⟨1, 0, 1, 1, 1, none, "d1", 11⟩,
        ⟨2, 2, 3, 3, 3, none, "d2", 12⟩], 3⟩ ∧
    ((lbOrder ⟨[⟨0, 2, 5, 4, 3, none, "d1", 10⟩, ⟨1, 0, 1, 1, 1, none, "d1", 11⟩,
        ⟨2, 2, 3, 3, 3, none, "d2", 12⟩], 3⟩).Nodup ∧
     ∀ x ∈ api_leaderboard ⟨[⟨0, 2, 5, 4, 3, none, "d1", 10⟩,
        ⟨1, 0, 1, 1, 1, none, "d1", 11⟩, ⟨2, 2, 3, 3, 3, none, "d2", 12⟩], 3⟩,
       1 ≤ x.votes) :=
  ⟨by unfold WF; decide,
   (spec_C3 ⟨[⟨0, 2, 5, 4, 3, none, "d1", 10⟩, ⟨1, 0, 1, 1, 1, none, "d1", 11⟩,
      ⟨2, 2, 3, 3, 3, none, "d2", 12⟩], 3⟩ (by unfold WF; decide)).2.1,
   (spec_C3 ⟨[⟨0, 2, 5, 4, 3, none, "d1", 10⟩, ⟨1, 0, 1, 1, 1, none, "d1", 11⟩,
      ⟨2, 2, 3, 3, 3, none, "d2", 12⟩], 3⟩ (by unfold WF; decide)).2.2.2.1⟩

/-! ### Rounding bridge: integer arithmetic vs the spec's rounding -/

lemma half_lt_iff (r : Int) (b : Nat) (hb : 0 < b) :
    ((r : ℚ) / ((b : Nat) : ℚ) < 1/2) ↔ (2 * r < (b : Int)) := by
  have hbq : (0 : ℚ) < ((b : Nat) : ℚ) := by exact_mod_cast hb
  rw [div_lt_iff₀ hbq]
  constructor
  · intro h
    have h2 : (2 : ℚ) * (r : ℚ) < ((b : Nat) : ℚ) := by linarith
    exact_mod_cast h2
  · intro h
    have h2 : ((2 * r : Int) : ℚ) < (((b : Int) : Int) : ℚ) := by exact_mod_cast h
    push_cast at h2
    linarith

lemma lt_half_iff (r : Int) (b : Nat) (hb : 0 < b) :
    ((1 : ℚ)/2 < (r : ℚ) / ((b : Nat) : ℚ)) ↔ ((b : Int) < 2 * r) := by
  have hbq : (0 : ℚ) < ((b : Nat) : ℚ) := by exact_mod_cast hb
  rw [lt_div_iff₀ hbq]
  constructor
  · intro h
    have h2 : ((b : Nat) : ℚ) < (2 : ℚ) * (r : ℚ) := by linarith
    exact_mod_cast h2
  · intro h
    have h2 : (((b : Int) : Int) : ℚ) < ((2 * r : Int) : ℚ) := by exact_mod_cast h
    push_cast at h2
    linarith

lemma roundHalfEvenFrac_eq_spec (a : Int) (b : Nat) (hb : 0 < b) :
    roundHalfEvenFrac a b = roundHalfEvenQ ((a : ℚ) / ((b : Nat) : ℚ)) := by
  have hfloor : ⌊(a : ℚ) / ((b : Nat) : ℚ)⌋ = a / (b : Int) :=
    Rat.floor_intCast_div_natCast a b
  have hbq : (0 : ℚ) < ((b : Nat) : ℚ) := by exact_mod_cast hb
  have hfrac : (a : ℚ) / ((b : Nat) : ℚ) - ((a / (b : Int) : Int) : ℚ) =
      ((a % (b : Int) : Int) : ℚ) / ((b : Nat) : ℚ) := by
    set d : Int := a / (b : Int) with hd
    rw [Int.emod_def, ← hd]
    push_cast
    field_simp
  unfold roundHalfEvenFrac roundHalfEvenQ
  rw [hfloor, hfrac]
  by_cases h1 : 2 * (a % (b : Int)) < (b : Int)
  · rw [if_pos h1, if_pos ((half_lt_iff _ _ hb).mpr h1)]
  · rw [if_neg h1, if_neg (fun hq => h1 ((half_lt_iff _ _ hb).mp hq))]
    by_cases h2 : (b : Int) < 2 * (a % (b : Int))
    · rw [if_pos h2, if_pos ((lt_half_iff _ _ hb).mpr h2)]
    · rw [if_neg h2, if_neg (fun hq => h2 ((lt_half_iff _ _ hb).mp hq))]

lemma avgCenti_eq_spec (s : Int) (n : Nat) (hn : 0 < n) :
    ((avgCenti s n : Int) : ℚ) / 100 = round2Spec ((s : ℚ) / ((n : Nat) : ℚ)) := by
  unfold avgCenti round2Spec
  rw [roundHalfEvenFrac_eq_spec (100 * s) n hn]
  have harg : ((100 * s : Int) : ℚ) / ((n : Nat) : ℚ) =
      100 * ((s : ℚ) / ((n : Nat) : ℚ)) := by
    push_cast
    ring
  rw [harg]

lemma sum_map_add3 (l : List Row) :
    (l.map (fun r => (r.taste : ℚ) + (r.presentation : ℚ) + (r.easy : ℚ))).sum =
      (l.map (fun r => (r.taste : ℚ))).sum +
      (l.map (fun r => (r.presentation : ℚ))).sum +
      (l.map (fun r => (r.easy : ℚ))).sum := by
  induction l with
  | nil => simp
  | cons r l ih =>
      simp only [List.map_cons, List.sum_cons, ih]
      ring

lemma cast_sum_taste (l : List Row) :
    (((l.map (fun r => r.taste)).sum : Int) : ℚ) =
      (l.map (fun r => (r.taste : ℚ))).sum := by
  rw [Int.cast_list_sum, List.map_map]
  rfl

lemma cast_sum_pres (l : List Row) :
    (((l.map (fun r => r.presentation)).sum : Int) : ℚ) =
      (l.map (fun r => (r.presentation : ℚ))).sum := by
  rw [Int.cast_list_sum, List.map_map]
  rfl

lemma cast_sum_easy (l : List Row) :
    (((l.map (fun r => r.easy)).sum : Int) : ℚ) =
      (l.map (fun r => (r.easy : ℚ))).sum := by
  rw [Int.cast_list_sum, List.map_map]
  rfl

/-- Half-even rounding of a fraction lands within half a unit of it. -/
lemma rhef_close (a : Int) (b : Nat) (hb : 0 < b) :
    |((roundHalfEvenFrac a b : Int) : ℚ) - (a : ℚ) / ((b : Nat) : ℚ)| ≤ 1/2 := by
  have hbq : (0 : ℚ) < ((b : Nat) : ℚ) := by exact_mod_cast hb
  have hbi : (0 : Int) < (b : Int) := by exact_mod_cast hb
  unfold roundHalfEvenFrac
  set d : Int := a / (b : Int)
  set r : Int := a % (b : Int)
  have hid : (b : Int) * d + r = a := Int.ediv_add_emod a (b : Int)
  have hcast : ((b : Nat) : ℚ) * (d : ℚ) + (r : ℚ) = (a : ℚ) := by exact_mod_cast hid
  have hquot : (a : ℚ) / ((b : Nat) : ℚ) = (d : ℚ) + (r : ℚ) / ((b : Nat) : ℚ) := by
    field_simp
    linarith
  rw [hquot]
  have hr0 : (0 : Int) ≤ r := Int.emod_nonneg a (ne_of_gt hbi)
  have hrb : r < (b : Int) := Int.emod_lt_of_pos a hbi
  have hrq0 : (0 : ℚ) ≤ (r : ℚ) / ((b : Nat) : ℚ) := by
    apply div_nonneg _ (le_of_lt hbq)
    exact_mod_cast hr0
  by_cases h1 : 2 * r < (b : Int)
  · rw [if_pos h1]
    have hlt : (r : ℚ) / ((b : Nat) : ℚ) < 1/2 := (half_lt_iff r b hb).mpr h1
    have heq : (d : ℚ) - ((d : ℚ) + (r : ℚ) / ((b : Nat) : ℚ)) =
        -((r : ℚ) / ((b : Nat) : ℚ)) := by ring
    rw [heq, abs_neg, abs_of_nonneg hrq0]
    linarith
  · rw [if_neg h1]
    by_cases h2 : (b : Int) < 2 * r
    · rw [if_pos h2]
      have hlt1 : (r : ℚ) / ((b : Nat) : ℚ) < 1 := by
        rw [div_lt_one hbq]
        exact_mod_cast hrb
      have hgt : (1 : ℚ)/2 < (r : ℚ) / ((b : Nat) : ℚ) := (lt_half_iff r b hb).mpr h2
      have heq : ((d + 1 : Int) : ℚ) - ((d : ℚ) + (r : ℚ) / ((b : Nat) : ℚ)) =
          1 - (r : ℚ) / ((b : Nat) : ℚ) := by push_cast; ring
      rw [heq, abs_of_nonneg (by linarith)]
      linarith
    · rw [if_neg h2]
      have htie : (r : ℚ) / ((b : Nat) : ℚ) = 1/2 := by
        have hge : ¬ ((r : ℚ) / ((b : Nat) : ℚ) < 1/2) :=
          fun hc => h1 ((half_lt_iff r b hb).mp hc)
        have hle : ¬ ((1 : ℚ)/2 < (r : ℚ) / ((b : Nat) : ℚ)) :=
          fun hc => h2 ((lt_half_iff r b hb).mp hc)
        linarith [not_lt.mp hge, not_lt.mp hle]
      by_cases h3 : d % 2 = 0
      · rw [if_pos h3]
        have heq : (d : ℚ) - ((d : ℚ) + (r : ℚ) / ((b : Nat) : ℚ)) = -(1/2) := by
          rw [htie]; ring
        rw [heq, abs_neg, abs_of_nonneg (by norm_num : (0:ℚ) ≤ 1/2)]
      · rw [if_neg h3]
        have heq : ((d + 1 : Int) : ℚ) - ((d : ℚ) + (r : ℚ) / ((b : Nat) : ℚ)) = 1/2 := by
          push_cast
          rw [htie]
          ring
        rw [heq, abs_of_nonneg (by norm_num : (0:ℚ) ≤ 1/2)]

lemma findExp_cond_of_some (S n e2 : Nat) (h : findExp S n = some e2) :
    n * 2 ^ e2 ≤ S * 2 ^ 8 ∧ S * 2 ^ 7 < n * 2 ^ e2 := by
  have hp := List.find?_some h
  simpa using hp

lemma findExp_isSome (S n : Nat) (hn : 0 < n) (h1 : n ≤ S) (h2 : S ≤ 15 * n) :
    ∃ e2, findExp S n = some e2 := by
  have hex : ∃ x ∈ List.range 121,
      (fun e2 => decide (n * 2 ^ e2 ≤ S * 2 ^ 8 ∧ S * 2 ^ 7 < n * 2 ^ e2)) x = true := by
    by_cases c1 : S * 2 ^ 7 < n * 2 ^ 8
    · refine ⟨8, List.mem_range.mpr (by norm_num), ?_⟩
      rw [decide_eq_true_eq]
      exact ⟨Nat.mul_le_mul_right _ h1, c1⟩
    · by_cases c2 : S * 2 ^ 7 < n * 2 ^ 9
      · refine ⟨9, List.mem_range.mpr (by norm_num), ?_⟩
        rw [decide_eq_true_eq]
        have hnc := Nat.le_of_not_lt c1
        norm_num at hnc c2 ⊢
        omega
      · by_cases c3 : S * 2 ^ 7 < n * 2 ^ 10
        · refine ⟨10, List.mem_range.mpr (by norm_num), ?_⟩
          rw [decide_eq_true_eq]
          have hnc := Nat.le_of_not_lt c2
          norm_num at hnc c3 ⊢
          omega
        · refine ⟨11, List.mem_range.mpr (by norm_num), ?_⟩
          rw [decide_eq_true_eq]
          have hnc := Nat.le_of_not_lt c3
          norm_num at hnc ⊢
          omega
  have hsome : (findExp S n).isSome := by
    unfold findExp
    rw [List.find?_isSome]
    exact hex
  obtain ⟨e2, he2⟩ := Option.isSome_iff_exists.mp hsome
  exact ⟨e2, he2⟩

/-- The binary64-faithful rounding agrees with the exact-mean rounding up
to one hundredth, for means in the score range. -/
lemma avgCentiFl_close (s : Int) (n : Nat) (hn : 0 < n)
    (hs1 : (n : Int) ≤ s) (hs2 : s ≤ 15 * (n : Int)) :
    (avgCentiFl s n - avgCenti s n).natAbs ≤ 1 := by
  have hs0 : (0 : Int) ≤ s := le_trans (Int.natCast_nonneg n) hs1
  set S : Nat := s.toNat with hSdef
  have hSs : (S : Int) = s := Int.toNat_of_nonneg hs0
  have hSn : n ≤ S := by omega
  have hS15 : S ≤ 15 * n := by omega
  obtain ⟨e2, hfind⟩ := findExp_isSome S n hn hSn hS15
  obtain ⟨hc1, hc2⟩ := findExp_cond_of_some S n e2 hfind
  have he2 : e2 ≤ 11 := by
    by_contra hcon
    push_neg at hcon
    have hpow : (2 : Nat) ^ 12 ≤ 2 ^ e2 := Nat.pow_le_pow_right (by norm_num) hcon
    have hm1 : n * 2 ^ 12 ≤ n * 2 ^ e2 := Nat.mul_le_mul_left n hpow
    have hm2 : S * 2 ^ 8 ≤ 15 * n * 2 ^ 8 := Nat.mul_le_mul_right _ hS15
    norm_num at hm1 hm2
    omega
  have hbranch : ¬ (60 ≤ e2) := by omega
  have haux : avgCentiFl s n = roundHalfEvenFrac
      (100 * roundHalfEvenFrac ((S : Int) * 2 ^ (60 - e2)) n) (2 ^ (60 - e2)) := by
    unfold avgCentiFl
    rw [if_pos hs0]
    simp only [avgCentiFlAux, hfind]
    rw [if_neg hbranch]
  rw [haux]
  set k : Nat := 60 - e2 with hk
  have hk49 : 49 ≤ k := by omega
  set m : Int := roundHalfEvenFrac ((S : Int) * 2 ^ k) n with hm
  set V : Int := roundHalfEvenFrac (100 * m) (2 ^ k) with hV
  have hkpos : 0 < (2 : Nat) ^ k := pow_pos (by norm_num) k
  have hkq : (0 : ℚ) < (2 : ℚ) ^ k := pow_pos (by norm_num) k
  have hnq : (0 : ℚ) < ((n : Nat) : ℚ) := by exact_mod_cast hn
  have E1 := rhef_close ((S : Int) * 2 ^ k) n hn
  have E2 := rhef_close (100 * m) (2 ^ k) hkpos
  have E3 := rhef_close (100 * s) n hn
  have hq1 : |(m : ℚ) - ((S : ℚ) * (2 : ℚ) ^ k) / ((n : Nat) : ℚ)| ≤ 1/2 := by
    push_cast at E1
    exact E1
  have hq2 : |(V : ℚ) - (100 * (m : ℚ)) / (2 : ℚ) ^ k| ≤ 1/2 := by
    push_cast at E2
    exact E2
  have hq3 : |((avgCenti s n : Int) : ℚ) - (100 * (s : ℚ)) / ((n : Nat) : ℚ)| ≤ 1/2 := by
    have hAdef : avgCenti s n = roundHalfEvenFrac (100 * s) n := rfl
    rw [hAdef]
    push_cast at E3
    exact E3
  have hSq : (S : ℚ) = (s : ℚ) := by exact_mod_cast hSs
  have hmid : |(100 * (m : ℚ)) / (2 : ℚ) ^ k - (100 * (s : ℚ)) / ((n : Nat) : ℚ)| ≤ 1/2 := by
    have heq : (100 * (m : ℚ)) / (2 : ℚ) ^ k - (100 * (s : ℚ)) / ((n : Nat) : ℚ) =
        (100 / (2 : ℚ) ^ k) * ((m : ℚ) - ((S : ℚ) * (2 : ℚ) ^ k) / ((n : Nat) : ℚ)) := by
      rw [hSq]
      field_simp
      ring
    rw [heq, abs_mul, abs_of_pos (by positivity : (0:ℚ) < 100 / (2 : ℚ) ^ k)]
    have hb1 : (100 / (2 : ℚ) ^ k) *
        |(m : ℚ) - ((S : ℚ) * (2 : ℚ) ^ k) / ((n : Nat) : ℚ)| ≤
        (100 / (2 : ℚ) ^ k) * (1/2) :=
      mul_le_mul_of_nonneg_left hq1 (by positivity)
    have hfrac1 : 100 / (2 : ℚ) ^ k ≤ 1 := by
      rw [div_le_one hkq]
      calc (100 : ℚ) ≤ (2 : ℚ) ^ 49 := by norm_num
        _ ≤ (2 : ℚ) ^ k := by
            apply pow_le_pow_right₀ (by norm_num) hk49
    have hb2 : (100 / (2 : ℚ) ^ k) * (1/2) ≤ 1/2 := by nlinarith
    linarith
  have htot : |(V : ℚ) - ((avgCenti s n : Int) : ℚ)| ≤ 3/2 := by
    have t1 := abs_sub_le (V : ℚ) ((100 * (m : ℚ)) / (2 : ℚ) ^ k)
      ((avgCenti s n : Int) : ℚ)
    have t2 := abs_sub_le ((100 * (m : ℚ)) / (2 : ℚ) ^ k)
      ((100 * (s : ℚ)) / ((n : Nat) : ℚ)) ((avgCenti s n : Int) : ℚ)
    have hq3r : |(100 * (s : ℚ)) / ((n : Nat) : ℚ) - ((avgCenti s n : Int) : ℚ)| ≤ 1/2 := by
      rw [abs_sub_comm]
      exact hq3
    linarith
  have hint : |V - avgCenti s n| ≤ 1 := by
    by_contra hcon
    push_neg at hcon
    have h2le : (1 : Int) + 1 ≤ |V - avgCenti s n| := Int.add_one_le_iff.mpr hcon
    have h2q : (2 : ℚ) ≤ |(V : ℚ) - ((avgCenti s n : Int) : ℚ)| := by
      calc (2 : ℚ) = ((2 : Int) : ℚ) := by norm_num
        _ ≤ ((|V - avgCenti s n| : Int) : ℚ) := by exact_mod_cast h2le
        _ = |(V : ℚ) - ((avgCenti s n : Int) : ℚ)| := by
            rw [Int.cast_abs, Int.cast_sub]
    linarith
  rw [Int.abs_eq_natAbs] at hint
  omega

lemma sum_bounds_int (l : List Row) (f : Row → Int) (lo hi : Int)
    (h : ∀ r ∈ l, lo ≤ f r ∧ f r ≤ hi) :
    (l.length : Int) * lo ≤ (l.map f).sum ∧ (l.map f).sum ≤ (l.length : Int) * hi := by
  induction l with
  | nil => simp
  | cons r t ih =>
      have hr := h r (List.mem_cons_self r t)
      have ht := ih (fun x hx => h x (List.mem_cons_of_mem r hx))
      simp only [List.map_cons, List.sum_cons, List.length_cons]
      push_cast
      constructor
      · nlinarith [ht.1, hr.1]
      · nlinarith [ht.2, hr.2]

lemma sum_map_add3_int (l : List Row) :
    (l.map (fun r => r.taste + r.presentation + r.easy)).sum =
      (l.map (fun r => r.taste)).sum + (l.map (fun r => r.presentation)).sum +
      (l.map (fun r => r.easy)).sum := by
  induction l with
  | nil => simp
  | cons r t ih =>
      simp only [List.map_cons, List.sum_cons, ih]
      ring

lemma cast_sum_total (l : List Row) :
    (((l.map (fun r => r.taste + r.presentation + r.easy)).sum : Int) : ℚ) =
      (l.map (fun r => (r.taste : ℚ) + (r.presentation : ℚ) + (r.easy : ℚ))).sum := by
  rw [Int.cast_list_sum, List.map_map]
  congr 1
  apply List.map_congr_left
  intro r _
  simp only [Function.comp]
  push_cast
  ring

lemma centi_bound (x y : Int) (h : (x - y).natAbs ≤ 1) :
    |(x : ℚ) / 100 - (y : ℚ) / 100| ≤ 1/100 := by
  have hint : ((x - y).natAbs : Int) ≤ 1 := by exact_mod_cast h
  have habs : |x - y| ≤ 1 := by
    rw [Int.abs_eq_natAbs]
    exact hint
  have hq : |(x : ℚ) - (y : ℚ)| ≤ 1 := by
    have hcast : ((|x - y| : Int) : ℚ) = |(x : ℚ) - (y : ℚ)| := by
      rw [Int.cast_abs, Int.cast_sub]
    rw [← hcast]
    exact_mod_cast habs
  have heq : (x : ℚ) / 100 - (y : ℚ) / 100 = ((x : ℚ) - (y : ℚ)) / 100 := by ring
  rw [heq, abs_div, abs_of_pos (by norm_num : (0:ℚ) < 100),
    div_le_div_iff_of_pos_right (by norm_num : (0:ℚ) < 100)]
  exact hq

/-- Counterexample to claim C4 as stated: for 40 ratings of entrant 0 with
taste sum 107, the program emits 2.67 — `round` acts on the binary64 value
of the mean, which lies below the decimal tie 2.675 — while the exact
arithmetic mean rounded to 2 decimal places is 2.68. -/
theorem spec_C4_counterexample :
    (mkEntry dbC4 0).avg_taste_c = 267 ∧
    round2Spec (((entrantRatings dbC4 0).map (fun r => (r.taste : ℚ))).sum /
      (((entrantRatings dbC4 0).length : Nat) : ℚ)) = 268/100 ∧
    ((mkEntry dbC4 0).avg_taste_c : ℚ) / 100 ≠
      round2Spec (((entrantRatings dbC4 0).map (fun r => (r.taste : ℚ))).sum /
        (((entrantRatings dbC4 0).length : Nat) : ℚ)) := by
  have hsum : ((entrantRatings dbC4 0).map (fun r => r.taste)).sum = 107 := by decide
  have hlen : (entrantRatings dbC4 0).length = 40 := by decide
  have hspec : round2Spec (((entrantRatings dbC4 0).map (fun r => (r.taste : ℚ))).sum /
      (((entrantRatings dbC4 0).length : Nat) : ℚ)) = 268/100 := by
    rw [← cast_sum_taste, hsum, hlen]
    unfold round2Spec
    have harg : (100 : ℚ) * (((107 : Int) : ℚ) / ((40 : Nat) : ℚ)) =
        ((10700 : Int) : ℚ) / ((40 : Nat) : ℚ) := by
      push_cast
      ring
    rw [harg, ← roundHalfEvenFrac_eq_spec 10700 40 (by norm_num),
      show roundHalfEvenFrac 10700 40 = 268 from by decide]
    norm_num
  refine ⟨by decide, hspec, ?_⟩
  rw [hspec, show (mkEntry dbC4 0).avg_taste_c = 267 from by decide]
  norm_num

/-- Claim C4 (amended: rounding acts on the binary64 value of the mean —
SQLite's AVG returns a double and Python's `round` rounds it — so each
leaderboard average equals the two-decimal half-even rounding of that
double quotient; this always lies within one hundredth of the exact mean
rounded to 2 decimals, but differs at decimal ties such as taste sum 107
over 40 votes, where the program emits 2.67 and exact rounding gives 2.68). -/
theorem spec_C4 (db : DB) (e : Int) (he : e ∈ lbOrder db)
    (hscores : ∀ r ∈ entrantRatings db e,
      (1 ≤ r.taste ∧ r.taste ≤ 5) ∧ (1 ≤ r.presentation ∧ r.presentation ≤ 5) ∧
      (1 ≤ r.easy ∧ r.easy ≤ 5)) :
    mkEntry db e ∈ api_leaderboard db ∧
    (mkEntry db e).votes = (entrantRatings db e).length ∧
    (mkEntry db e).avg_taste_c =
      avgCentiFl ((entrantRatings db e).map (fun r => r.taste)).sum
        (entrantRatings db e).length ∧
    (mkEntry db e).avg_presentation_c =
      avgCentiFl ((entrantRatings db e).map (fun r => r.presentation)).sum
        (entrantRatings db e).length ∧
    (mkEntry db e).avg_easy_c =
      avgCentiFl ((entrantRatings db e).map (fun r => r.easy)).sum
        (entrantRatings db e).length ∧
    (mkEntry db e).avg_total_c =
      avgCentiFl ((entrantRatings db e).map
          (fun r => r.taste + r.presentation + r.easy)).sum
        (entrantRatings db e).length ∧
    |((mkEntry db e).avg_taste_c : ℚ) / 100 -
      round2Spec (((entrantRatings db e).map (fun r => (r.taste : ℚ))).sum /
        (((entrantRatings db e).length : Nat) : ℚ))| ≤ 1/100 ∧
    |((mkEntry db e).avg_presentation_c : ℚ) / 100 -
      round2Spec (((entrantRatings db e).map (fun r => (r.presentation : ℚ))).sum /
        (((entrantRatings db e).length : Nat) : ℚ))| ≤ 1/100 ∧
    |((mkEntry db e).avg_easy_c : ℚ) / 100 -
      round2Spec (((entrantRatings db e).map (fun r => (r.easy : ℚ))).sum /
        (((entrantRatings db e).length : Nat) : ℚ))| ≤ 1/100 ∧
    |((mkEntry db e).avg_total_c : ℚ) / 100 -
      round2Spec (((entrantRatings db e).map
          (fun r => (r.taste : ℚ) + (r.presentation : ℚ) + (r.easy : ℚ))).sum /
        (((entrantRatings db e).length : Nat) : ℚ))| ≤ 1/100 := by
  have hpos := votes_pos_of_mem db e he
  set l := entrantRatings db e with hl
  have haggOf : aggOf db e =
      ⟨l.length, (l.map (fun r => r.taste)).sum,
       (l.map (fun r => r.presentation)).sum, (l.map (fun r => r.easy)).sum⟩ := by
    unfold aggOf
    rw [← hl, aggregate_eq]
  have hv : (aggOf db e).votes = l.length := by rw [haggOf]
  have hT : (aggOf db e).sumTaste = (l.map (fun r => r.taste)).sum := by rw [haggOf]
  have hP : (aggOf db e).sumPres = (l.map (fun r => r.presentation)).sum := by
    rw [haggOf]
  have hE : (aggOf db e).sumEasy = (l.map (fun r => r.easy)).sum := by rw [haggOf]
  have hlenpos : 0 < l.length := by
    rw [hv] at hpos
    exact hpos
  have hlen0 : (0 : Int) ≤ (l.length : Int) := Int.natCast_nonneg l.length
  have hbT := sum_bounds_int l (fun r => r.taste) 1 5
    (fun r hr => (hscores r hr).1)
  have hbP := sum_bounds_int l (fun r => r.presentation) 1 5
    (fun r hr => (hscores r hr).2.1)
  have hbE := sum_bounds_int l (fun r => r.easy) 1 5
    (fun r hr => (hscores r hr).2.2)
  have hbTot := sum_bounds_int l (fun r => r.taste + r.presentation + r.easy) 3 15
    (fun r hr => by
      obtain ⟨⟨a1, a2⟩, ⟨b1, b2⟩, ⟨c1, c2⟩⟩ := hscores r hr
      dsimp only
      constructor <;> omega)
  have hclT := avgCentiFl_close ((l.map (fun r => r.taste)).sum) l.length hlenpos
    (by nlinarith [hbT.1]) (by nlinarith [hbT.2, hlen0])
  have hclP := avgCentiFl_close ((l.map (fun r => r.presentation)).sum) l.length
    hlenpos (by nlinarith [hbP.1]) (by nlinarith [hbP.2, hlen0])
  have hclE := avgCentiFl_close ((l.map (fun r => r.easy)).sum) l.length hlenpos
    (by nlinarith [hbE.1]) (by nlinarith [hbE.2, hlen0])
  have hclTot := avgCentiFl_close
    ((l.map (fun r => r.taste + r.presentation + r.easy)).sum) l.length hlenpos
    (by nlinarith [hbTot.1, hlen0]) (by nlinarith [hbTot.2])
  have hTotAgg : (aggOf db e).sumTotal =
      (l.map (fun r => r.taste + r.presentation + r.easy)).sum := by
    unfold Agg.sumTotal
    rw [hT, hP, hE, ← sum_map_add3_int]
  refine ⟨List.mem_map_of_mem (mkEntry db) he, hv, ?_, ?_, ?_, ?_, ?_, ?_, ?_, ?_⟩
  · show avgCentiFl (aggOf db e).sumTaste (aggOf db e).votes = _
    rw [hT, hv]
  · show avgCentiFl (aggOf db e).sumPres (aggOf db e).votes = _
    rw [hP, hv]
  · show avgCentiFl (aggOf db e).sumEasy (aggOf db e).votes = _
    rw [hE, hv]
  · show avgCentiFl (aggOf db e).sumTotal (aggOf db e).votes = _
    rw [hTotAgg, hv]
  · show |((avgCentiFl (aggOf db e).sumTaste (aggOf db e).votes : Int) : ℚ) / 100 - _| ≤ _
    rw [hT, hv, ← cast_sum_taste,
      ← avgCenti_eq_spec ((l.map (fun r => r.taste)).sum) l.length hlenpos]
    exact centi_bound _ _ hclT
  · show |((avgCentiFl (aggOf db e).sumPres (aggOf db e).votes : Int) : ℚ) / 100 - _| ≤ _
    rw [hP, hv, ← cast_sum_pres,
      ← avgCenti_eq_spec ((l.map (fun r => r.presentation)).sum) l.length hlenpos]
    exact centi_bound _ _ hclP
  · show |((avgCentiFl (aggOf db e).sumEasy (aggOf db e).votes : Int) : ℚ) / 100 - _| ≤ _
    rw [hE, hv, ← cast_sum_easy,
      ← avgCenti_eq_spec ((l.map (fun r => r.easy)).sum) l.length hlenpos]
    exact centi_bound _ _ hclE
  · show |((avgCentiFl (aggOf db e).sumTotal (aggOf db e).votes : Int) : ℚ) / 100 - _| ≤ _
    rw [hTotAgg, hv, ← cast_sum_total,
      ← avgCenti_eq_spec ((l.map (fun r => r.taste + r.presentation + r.easy)).sum)
        l.length hlenpos]
    exact centi_bound _ _ hclTot

theorem spec_C4_witness :
    (0 : Int) ∈ lbOrder ⟨[⟨0, 0, 5, 4, 3, none, "d1", 1⟩,
      ⟨1, 0, 4, 4, 4, none, "d2", 2⟩], 2⟩ ∧
    (∀ r ∈ entrantRatings ⟨[⟨0, 0, 5, 4, 3, none, "d1", 1⟩,
        ⟨1, 0, 4, 4, 4, none, "d2", 2⟩], 2⟩ 0,
      (1 ≤ r.taste ∧ r.taste ≤ 5) ∧ (1 ≤ r.presentation ∧ r.presentation ≤ 5) ∧
      (1 ≤ r.easy ∧ r.easy ≤ 5)) ∧
    (mkEntry ⟨[⟨0, 0, 5, 4, 3, none, "d1", 1⟩, ⟨1, 0, 4, 4, 4, none, "d2", 2⟩], 2⟩ 0).votes
      = (entrantRatings ⟨[⟨0, 0, 5, 4, 3, none, "d1", 1⟩,
          ⟨1, 0, 4, 4, 4, none, "d2", 2⟩], 2⟩ 0).length ∧
    (mkEntry ⟨[⟨0, 0, 5, 4, 3, none, "d1", 1⟩, ⟨1, 0, 4, 4, 4, none, "d2", 2⟩], 2⟩ 0).avg_taste_c
      = avgCentiFl ((entrantRatings ⟨[⟨0, 0, 5, 4, 3, none, "d1", 1⟩,
          ⟨1, 0, 4, 4, 4, none, "d2", 2⟩], 2⟩ 0).map (fun r => r.taste)).sum
        (entrantRatings ⟨[⟨0, 0, 5, 4, 3, none, "d1", 1⟩,
          ⟨1, 0, 4, 4, 4, none, "d2", 2⟩], 2⟩ 0).length :=
  ⟨by decide, by decide,
   (spec_C4 ⟨[⟨0, 0, 5, 4, 3, none, "d1", 1⟩, ⟨1, 0, 4, 4, 4, none, "d2", 2⟩], 2⟩ 0
     (by decide) (by decide)).2.1,
   (spec_C4 ⟨[⟨0, 0, 5, 4, 3, none, "d1", 1⟩, ⟨1, 0, 4, 4, 4, none, "d2", 2⟩], 2⟩ 0
     (by decide) (by decide)).2.2.1⟩

/-! ### Admin gate: trace lemmas -/

lemma adminAuthAfter_nil (s : Bool) : adminAuthAfter s [] = s := rfl

lemma adminAuthAfter_cons (s : Bool) (r : AdminReq) (l : List AdminReq) :
    adminAuthAfter s (r :: l) = adminAuthAfter (adminStep s r).1 l := rfl

lemma correctPostAt_cons_succ (r : AdminReq) (rs : List AdminReq) (j : Nat) :
    correctPostAt (r :: rs) (j + 1) ↔ correctPostAt rs j := by
  unfold correctPostAt
  simp [List.getElem?_cons_succ]

lemma noLogoutAfter_cons_succ (r : AdminReq) (rs : List AdminReq) (j : Nat) :
    noLogoutAfter (r :: rs) (j + 1) ↔ noLogoutAfter rs j := by
  unfold noLogoutAfter
  constructor
  · intro h l hjl hll
    have := h (l + 1) (by omega) (by simp [List.length_cons]; omega)
    simpa [List.getElem?_cons_succ] using this
  · intro h l hjl hll
    cases l with
    | zero => omega
    | succ m =>
        have hm : m < rs.length := by simp [List.length_cons] at hll; omega
        have := h m (by omega) hm
        simpa [List.getElem?_cons_succ] using this

lemma noLogoutAfter_cons_zero (r : AdminReq) (rs : List AdminReq) :
    noLogoutAfter (r :: rs) 0 ↔
      (∀ l, l < rs.length → rs[l]? ≠ some AdminReq.logout) := by
  unfold noLogoutAfter
  constructor
  · intro h l hl
    have := h (l + 1) (Nat.succ_pos l) (by simp [List.length_cons]; omega)
    simpa [List.getElem?_cons_succ] using this
  · intro h l h0 hl
    cases l with
    | zero => omega
    | succ m =>
        have hm : m < rs.length := by simp [List.length_cons] at hl; omega
        have := h m hm
        simpa [List.getElem?_cons_succ] using this

lemma adminAuthAfter_true_iff (s : Bool) (reqs : List AdminReq) :
    adminAuthAfter s reqs = true ↔
      ((∃ j < reqs.length, correctPostAt reqs j ∧ noLogoutAfter reqs j) ∨
       (s = true ∧ ∀ l, l < reqs.length → reqs[l]? ≠ some AdminReq.logout)) := by
  induction reqs generalizing s with
  | nil =>
      simp [adminAuthAfter_nil]
  | cons r rs ih =>
      rw [adminAuthAfter_cons, ih]
      cases r with
      | get =>
          constructor
          · rintro (⟨j, hj, hcp, hnl⟩ | ⟨hs, hnl⟩)
            · exact Or.inl ⟨j + 1, by simp [List.length_cons]; omega,
                (correctPostAt_cons_succ _ _ _).mpr hcp,
                (noLogoutAfter_cons_succ _ _ _).mpr hnl⟩
            · refine Or.inr ⟨hs, ?_⟩
              intro l hl
              cases l with
              | zero => simp [List.getElem?_cons_zero]
              | succ m =>
                  have hm : m < rs.length := by simp [List.length_cons] at hl; omega
                  simpa [List.getElem?_cons_succ] using hnl m hm
          · rintro (⟨j, hj, hcp, hnl⟩ | ⟨hs, hnl⟩)
            · cases j with
              | zero =>
                  obtain ⟨pw, hpw, _⟩ := hcp
                  rw [List.getElem?_cons_zero] at hpw
                  cases hpw
              | succ k =>
                  refine Or.inl ⟨k, by simp [List.length_cons] at hj; omega,
                    (correctPostAt_cons_succ _ _ _).mp hcp,
                    (noLogoutAfter_cons_succ _ _ _).mp hnl⟩
            · refine Or.inr ⟨hs, ?_⟩
              intro l hl
              have := hnl (l + 1) (by simp [List.length_cons]; omega)
              simpa [List.getElem?_cons_succ] using this
      | logout =>
          constructor
          · rintro (⟨j, hj, hcp, hnl⟩ | ⟨hs, _⟩)
            · exact Or.inl ⟨j + 1, by simp [List.length_cons]; omega,
                (correctPostAt_cons_succ _ _ _).mpr hcp,
                (noLogoutAfter_cons_succ _ _ _).mpr hnl⟩
            · cases hs
          · rintro (⟨j, hj, hcp, hnl⟩ | ⟨hs, hnl⟩)
            · cases j with
              | zero =>
                  obtain ⟨pw, hpw, _⟩ := hcp
                  rw [List.getElem?_cons_zero] at hpw
                  cases hpw
              | succ k =>
                  refine Or.inl ⟨k, by simp [List.length_cons] at hj; omega,
                    (correctPostAt_cons_succ _ _ _).mp hcp,
                    (noLogoutAfter_cons_succ _ _ _).mp hnl⟩
            · exact absurd (hnl 0 (by simp [List.length_cons]))
                (by simp [List.getElem?_cons_zero])
      | postPw pw =>
          by_cases hpw : String.mk (pyStrip pw.toList) = ADMIN_PASSWORD
          · rw [show (adminStep s (AdminReq.postPw pw)).1 = true from by
              show (if String.mk (pyStrip pw.toList) = ADMIN_PASSWORD then
                  ((true, AdminPage.redirectToAdmin) : Bool × AdminPage)
                else (s, AdminPage.loginPage true)).1 = true
              rw [if_pos hpw]]
            constructor
            · rintro (⟨j, hj, hcp, hnl⟩ | ⟨_, hnl⟩)
              · exact Or.inl ⟨j + 1, by simp [List.length_cons]; omega,
                  (correctPostAt_cons_succ _ _ _).mpr hcp,
                  (noLogoutAfter_cons_succ _ _ _).mpr hnl⟩
              · refine Or.inl ⟨0, by simp [List.length_cons], ?_, ?_⟩
                · exact ⟨pw, List.getElem?_cons_zero, hpw⟩
                · exact (noLogoutAfter_cons_zero _ _).mpr hnl
            · rintro (⟨j, hj, hcp, hnl⟩ | ⟨_, hnl⟩)
              · cases j with
                | zero =>
                    exact Or.inr ⟨rfl, (noLogoutAfter_cons_zero _ _).mp hnl⟩
                | succ k =>
                    refine Or.inl ⟨k, by simp [List.length_cons] at hj; omega,
                      (correctPostAt_cons_succ _ _ _).mp hcp,
                      (noLogoutAfter_cons_succ _ _ _).mp hnl⟩
              · refine Or.inr ⟨rfl, ?_⟩
                intro l hl
                have := hnl (l + 1) (by simp [List.length_cons]; omega)
                simpa [List.getElem?_cons_succ] using this
          · rw [show (adminStep s (AdminReq.postPw pw)).1 = s from by
              show (if String.mk (pyStrip pw.toList) = ADMIN_PASSWORD then
                  ((true, AdminPage.redirectToAdmin) : Bool × AdminPage)
                else (s, AdminPage.loginPage true)).1 = s
              rw [if_neg hpw]]
            constructor
            · rintro (⟨j, hj, hcp, hnl⟩ | ⟨hs, hnl⟩)
              · exact Or.inl ⟨j + 1, by simp [List.length_cons]; omega,
                  (correctPostAt_cons_succ _ _ _).mpr hcp,
                  (noLogoutAfter_cons_succ _ _ _).mpr hnl⟩
              · refine Or.inr ⟨hs, ?_⟩
                intro l hl
                cases l with
                | zero => simp [List.getElem?_cons_zero]
                | succ m =>
                    have hm : m < rs.length := by
                      simp [List.length_cons] at hl; omega
                    simpa [List.getElem?_cons_succ] using hnl m hm
            · rintro (⟨j, hj, hcp, hnl⟩ | ⟨hs, hnl⟩)
              · cases j with
                | zero =>
                    obtain ⟨pw2, hpw2, hcorrect⟩ := hcp
                    rw [List.getElem?_cons_zero] at hpw2
                    injection hpw2 with hpp
                    injection hpp with hpp2
                    exact absurd (hpp2 ▸ hcorrect) hpw
                | succ k =>
                    refine Or.inl ⟨k, by simp [List.length_cons] at hj; omega,
                      (correctPostAt_cons_succ _ _ _).mp hcp,
                      (noLogoutAfter_cons_succ _ _ _).mp hnl⟩
              · refine Or.inr ⟨hs, ?_⟩
                intro l hl
                have := hnl (l + 1) (by simp [List.length_cons]; omega)
                simpa [List.getElem?_cons_succ] using this

lemma adminRun_results_iff (s : Bool) (reqs : List AdminReq) (i : Nat) :
    (adminRun s reqs)[i]? = some AdminPage.resultsPage ↔
      (reqs[i]? = some AdminReq.get ∧ adminAuthAfter s (reqs.take i) = true) := by
  induction reqs generalizing s i with
  | nil => simp [adminRun]
  | cons r rs ih =>
      cases i with
      | zero =>
          rw [show adminRun s (r :: rs) =
              (adminStep s r).2 :: adminRun (adminStep s r).1 rs from rfl]
          rw [List.getElem?_cons_zero, List.getElem?_cons_zero]
          rw [show (r :: rs).take 0 = [] from rfl, adminAuthAfter_nil]
          cases r with
          | get =>
              cases s with
              | true => simp [adminStep]
              | false => simp [adminStep]
          | postPw pw =>
              by_cases hpw : String.mk (pyStrip pw.toList) = ADMIN_PASSWORD
              · rw [show (adminStep s (AdminReq.postPw pw)).2 =
                    AdminPage.redirectToAdmin from by
                  show (if String.mk (pyStrip pw.toList) = ADMIN_PASSWORD then
                      ((true, AdminPage.redirectToAdmin) : Bool × AdminPage)
                    else (s, AdminPage.loginPage true)).2 = _
                  rw [if_pos hpw]]
                simp
              · rw [show (adminStep s (AdminReq.postPw pw)).2 =
                    AdminPage.loginPage true from by
                  show (if String.mk (pyStrip pw.toList) = ADMIN_PASSWORD then
                      ((true, AdminPage.redirectToAdmin) : Bool × AdminPage)
                    else (s, AdminPage.loginPage true)).2 = _
                  rw [if_neg hpw]]
                simp
          | logout => simp [adminStep]
      | succ i =>
          rw [show adminRun s (r :: rs) =
              (adminStep s r).2 :: adminRun (adminStep s r).1 rs from rfl]
          rw [List.getElem?_cons_succ, List.getElem?_cons_succ,
            List.take_succ_cons, adminAuthAfter_cons]
          exact ih (adminStep s r).1 i

lemma exists_take_iff (reqs : List AdminReq) (i : Nat) :
    (∃ j < (reqs.take i).length, correctPostAt (reqs.take i) j ∧
        noLogoutAfter (reqs.take i) j) ↔
      (∃ j < i, correctPostAt reqs j ∧
        ∀ l, j < l → l < i → reqs[l]? ≠ some AdminReq.logout) := by
  constructor
  · rintro ⟨j, hj, ⟨pw, hpw, hok⟩, hnl⟩
    rw [List.length_take] at hj
    have hj2 := lt_min_iff.mp hj
    refine ⟨j, hj2.1, ⟨pw, ?_, hok⟩, ?_⟩
    · rw [List.getElem?_take, if_pos hj2.1] at hpw
      exact hpw
    · intro l hjl hli
      by_cases hlen : l < reqs.length
      · have := hnl l hjl (by rw [List.length_take]; exact lt_min_iff.mpr ⟨hli, hlen⟩)
        rw [List.getElem?_take, if_pos hli] at this
        exact this
      · rw [List.getElem?_eq_none (by omega)]
        simp
  · rintro ⟨j, hji, ⟨pw, hpw, hok⟩, hnl⟩
    have hjlen : j < reqs.length := by
      by_contra hcon
      rw [List.getElem?_eq_none (by omega)] at hpw
      cases hpw
    refine ⟨j, ?_, ⟨pw, ?_, hok⟩, ?_⟩
    · rw [List.length_take]
      exact lt_min_iff.mpr ⟨hji, hjlen⟩
    · rw [List.getElem?_take, if_pos hji]
      exact hpw
    · intro l hjl hl
      rw [List.length_take] at hl
      have hl2 := lt_min_iff.mp hl
      rw [List.getElem?_take, if_pos hl2.1]
      exact hnl l hjl hl2.1

/-- Claim C7: starting unauthenticated, the detailed results page is served
at step i exactly when step i is a GET and some earlier step was a POST
with the correct password with no logout in between; an incorrect-password
POST leaves the flag unchanged and re-renders the prompt with an error, a
correct POST authenticates and redirects, logout clears the flag, and an
unauthenticated GET renders the plain prompt. -/
theorem spec_C7 (reqs : List AdminReq) (i : Nat) :
    ((adminRun false reqs)[i]? = some AdminPage.resultsPage ↔
      (reqs[i]? = some AdminReq.get ∧
        ∃ j < i, correctPostAt reqs j ∧
          ∀ l, j < l → l < i → reqs[l]? ≠ some AdminReq.logout)) ∧
    (∀ (s : Bool) (pw : String), String.mk (pyStrip pw.toList) ≠ ADMIN_PASSWORD →
      adminStep s (.postPw pw) = (s, .loginPage true)) ∧
    (∀ (s : Bool) (pw : String), String.mk (pyStrip pw.toList) = ADMIN_PASSWORD →
      adminStep s (.postPw pw) = (true, .redirectToAdmin)) ∧
    (∀ s : Bool, adminStep s .logout = (false, .redirectToAdmin)) ∧
    adminStep false .get = (false, .loginPage false) := by
  refine ⟨?_, ?_, ?_, fun s => rfl, rfl⟩
  · rw [adminRun_results_iff false reqs i]
    constructor
    · rintro ⟨hget, hauth⟩
      rw [adminAuthAfter_true_iff] at hauth
      rcases hauth with h | ⟨hfalse, _⟩
      · exact ⟨hget, (exists_take_iff reqs i).mp h⟩
      · cases hfalse
    · rintro ⟨hget, hex⟩
      refine ⟨hget, ?_⟩
      rw [adminAuthAfter_true_iff]
      exact Or.inl ((exists_take_iff reqs i).mpr hex)
  · intro s pw h
    show (if String.mk (pyStrip pw.toList) = ADMIN_PASSWORD then
        ((true, AdminPage.redirectToAdmin) : Bool × AdminPage)
      else (s, AdminPage.loginPage true)) = (s, AdminPage.loginPage true)
    rw [if_neg h]
  · intro s pw h
    show (if String.mk (pyStrip pw.toList) = ADMIN_PASSWORD then
        ((true, AdminPage.redirectToAdmin) : Bool × AdminPage)
      else (s, AdminPage.loginPage true)) = (true, AdminPage.redirectToAdmin)
    rw [if_pos h]

theorem spec_C7_witness :
    ((adminRun false [AdminReq.postPw "MASTERCHEF2025", AdminReq.get])[1]? =
      some AdminPage.resultsPage) ∧
    ([AdminReq.postPw "MASTERCHEF2025", AdminReq.get][1]? = some AdminReq.get ∧
      ∃ j < 1, correctPostAt [AdminReq.postPw "MASTERCHEF2025", AdminReq.get] j ∧
        ∀ l, j < l → l < 1 →
          [AdminReq.postPw "MASTERCHEF2025", AdminReq.get][l]? ≠
            some AdminReq.logout) ∧
    (adminRun false [AdminReq.logout, AdminReq.get])[1]? ≠
      some AdminPage.resultsPage :=
  ⟨by decide,
   (spec_C7 [AdminReq.postPw "MASTERCHEF2025", AdminReq.get] 1).1.mp (by decide),
   by decide⟩
